import Mathlib

set_option maxRecDepth 8192

/-!
Shallow embedding of the GLSL shader-program linker
(`src/mesalib/src/glsl/linker.cpp`) and proofs about its behaviour.

Machine integers are modelled as `Nat`/`Int` with explicit `% 2 ^ 32`
where 32-bit unsigned wraparound matters.  C strings become `String`;
the quote characters of the original printf formats are rendered with
backticks only.  Early `return` statements become explicit halt flags.
-/

namespace GlslLinker

/-! ## Diagnostic log and link status (linker.cpp 282-306, 1991-1996)

`gl_shader_program::InfoLog` is an append-only string built by
`ralloc_strcat`/`ralloc_vasprintf_append`; we model it as the list of
appended records, each remembering which of the two append paths
(`linker_error` / `linker_warning`) produced it together with the exact
text that path emits. -/

structure LogEntry where
  fromErrorPath : Bool
  text : String
  deriving DecidableEq, Repr

structure ProgState where
  LinkStatus : Bool
  InfoLog : List LogEntry
  deriving DecidableEq, Repr

/-- linker.cpp 282-293: prepend "error: ", append the message, clear
`LinkStatus`. -/
def linker_error (prog : ProgState) (msg : String) : ProgState :=
  { LinkStatus := false,
    InfoLog := prog.InfoLog ++ [⟨true, "error: " ++ msg⟩] }

/-- linker.cpp 296-306: the warning path.  The source prepends the very
same "error: " string (it does not write "warning: "), and it does not
touch `LinkStatus`. -/
def linker_warning (prog : ProgState) (msg : String) : ProgState :=
  { prog with InfoLog := prog.InfoLog ++ [⟨false, "error: " ++ msg⟩] }

/-- linker.cpp 1991-1996: `link_shaders` starts by setting
`LinkStatus = true` and emptying the info log. -/
def link_reset : ProgState :=
  { LinkStatus := true, InfoLog := [] }

/-- After the reset, every write to `LinkStatus`/`InfoLog` in the linker
goes through `linker_error` or `linker_warning`; a link run's effect on
the diagnostic state is therefore a sequence of these two operations. -/
inductive LinkerLogOp where
  | err (msg : String)
  | warn (msg : String)
  deriving DecidableEq, Repr

def applyLogOp (prog : ProgState) : LinkerLogOp → ProgState
  | .err msg => linker_error prog msg
  | .warn msg => linker_warning prog msg

def runLog (prog : ProgState) (ops : List LinkerLogOp) : ProgState :=
  ops.foldl applyLogOp prog

/-! ## GLSL types and variables -/

/-- `glsl_type`, restricted to what the linker inspects: array types
with element type and length (length 0 = implicitly sized / unsized),
and everything else as an opaque named base type.  `atomic` records
whether the type contains an atomic counter (`contains_atomic`). -/
inductive glsl_type where
  | base (tname : String) (atomic : Bool)
  | array (elem : glsl_type) (len : Nat)
  deriving DecidableEq, Repr

def glsl_type.is_array : glsl_type → Bool
  | .array _ _ => true
  | .base _ _ => false

/-- `glsl_type::fields.array`: the element type of an array type
(only compared when both sides are arrays). -/
def glsl_type.fields_array : glsl_type → glsl_type
  | .array e _ => e
  | t => t

/-- `glsl_type::length` for arrays; 0 for an unsized array. -/
def glsl_type.length : glsl_type → Nat
  | .array _ n => n
  | .base _ _ => 0

/-- `glsl_type::contains_atomic()`. -/
def glsl_type.contains_atomic : glsl_type → Bool
  | .base _ a => a
  | .array e _ => e.contains_atomic

/-- `glsl_type::name`, used only in diagnostic text. -/
def glsl_type.type_name : glsl_type → String
  | .base n _ => n
  | .array e n => e.type_name ++ "[" ++ toString n ++ "]"

inductive ir_variable_mode where
  | ir_var_auto
  | ir_var_uniform
  | ir_var_shader_in
  | ir_var_shader_out
  | ir_var_function_in
  | ir_var_function_out
  | ir_var_function_inout
  | ir_var_temporary
  deriving DecidableEq, Repr

inductive ir_depth_layout where
  | ir_depth_layout_none
  | ir_depth_layout_any
  | ir_depth_layout_greater
  | ir_depth_layout_less
  | ir_depth_layout_unchanged
  deriving DecidableEq, Repr

/-- `ir_variable`, restricted to the fields the linker reads or writes.
Constant initializers (`ir_constant`) are compared only by value
(`ir_constant::has_value`), so their values are modelled abstractly as
integers. -/
structure ir_variable where
  name : String
  type : glsl_type
  mode : ir_variable_mode
  explicit_location : Bool
  location : Int
  explicit_binding : Bool
  binding : Int
  /-- `var->atomic.offset` -/
  atomic_offset : Int
  depth_layout : ir_depth_layout
  used : Bool
  constant_initializer : Option Int
  has_initializer : Bool
  invariant : Bool
  centroid : Bool
  /-- `var->index` (fragment data index) -/
  index : Int
  is_unmatched_generic_inout : Bool
  deriving DecidableEq, Repr

/-- `mode_string` (declared in linker.h, outside src/); it only feeds
diagnostic text.  Modelled from the spec: errors name the kind of
global ("uniform", shader input/output, global) being cross-validated. -/
def mode_string (var : ir_variable) : String :=
  match var.mode with
  | .ir_var_uniform => "uniform"
  | .ir_var_shader_in => "shader input"
  | .ir_var_shader_out => "shader output"
  | _ => "global"

/-! ## IR instruction lists and scratch symbol table -/

structure ir_function_signature where
  params : List String
  is_defined : Bool
  is_builtin : Bool
  deriving DecidableEq, Repr

structure ir_function where
  name : String
  signatures : List ir_function_signature
  deriving DecidableEq, Repr

/-- A top-level node of a shader's `ir` list, as the linker's
`foreach_list` + `as_variable()` / `as_function()` dispatch sees it. -/
inductive ir_instruction where
  | var_decl (v : ir_variable)
  | function_decl (f : ir_function)
  | other
  deriving DecidableEq, Repr

/-- The scratch `glsl_symbol_table` of first-seen globals, in insertion
order.  Pointer updates through `existing` become in-place replacement
of the entry with the same name. -/
abbrev glsl_symbol_table := List ir_variable

def get_variable (table : glsl_symbol_table) (n : String) : Option ir_variable :=
  table.find? (fun v => v.name == n)

def add_variable (table : glsl_symbol_table) (v : ir_variable) : glsl_symbol_table :=
  table ++ [v]

def update_variable (table : glsl_symbol_table) (v : ir_variable) : glsl_symbol_table :=
  match table with
  | [] => []
  | w :: rest => if w.name == v.name then v :: rest else w :: update_variable rest v

/-! ## Cross-validator (cross_validate_globals, linker.cpp 563-772)

The body of the `existing != NULL` branch is a sequence of checks, each
of which may append a link error and `return` from the whole function.
Each check is modelled as a step from (updated `existing`, program
state) to the same, plus a halt flag; `cv_andThen` chains them with the
early-`return` shortcut.  All writes through the `existing` pointer are
kept, even on a path that later returns, because the C code mutates the
symbol-table entry in place. -/

structure CVResult where
  existing : ir_variable
  prog : ProgState
  halt : Bool
  deriving Repr

def cv_andThen (r : CVResult) (f : ir_variable → ProgState → CVResult) : CVResult :=
  if r.halt then r else f r.existing r.prog

/-! The error messages of the cross-validation checks (the printf
formats of linker.cpp 613-765, rendered with the quote convention of
this file). -/

def type_mismatch_msg (var existing : ir_variable) : String :=
  mode_string var ++ " `" ++ var.name ++ "` declared as type `"
    ++ var.type.type_name ++ "` and type `" ++ existing.type.type_name ++ "`\n"

def location_mismatch_msg (var : ir_variable) : String :=
  "explicit locations for " ++ mode_string var ++ " `" ++ var.name
    ++ "` have differing values\n"

def binding_mismatch_msg (var : ir_variable) : String :=
  "explicit bindings for " ++ mode_string var ++ " `" ++ var.name
    ++ "` have differing values\n"

def atomic_mismatch_msg (var : ir_variable) : String :=
  "offset specifications for " ++ mode_string var ++ " `" ++ var.name
    ++ "` have differing values\n"

def initializer_mismatch_msg (var : ir_variable) : String :=
  "initializers for " ++ mode_string var ++ " `" ++ var.name
    ++ "` have differing values\n"

def mixed_initializer_msg (var : ir_variable) : String :=
  "shared global variable `" ++ var.name
    ++ "` has multiple non-constant initializers.\n"

def invariant_mismatch_msg (var : ir_variable) : String :=
  "declarations for " ++ mode_string var ++ " `" ++ var.name
    ++ "` have mismatching invariant qualifiers\n"

def centroid_mismatch_msg (var : ir_variable) : String :=
  "declarations for " ++ mode_string var ++ " `" ++ var.name
    ++ "` have mismatching centroid qualifiers\n"

/-- linker.cpp 598-620: type check, with the implicit/explicit array
sizing exception (adopting the explicitly sized type). -/
def cv_check_type (var existing : ir_variable) (prog : ProgState) : CVResult :=
  if var.type ≠ existing.type then
    if var.type.is_array && existing.type.is_array
        && (var.type.fields_array == existing.type.fields_array)
        && ((var.type.length == 0) || (existing.type.length == 0)) then
      if var.type.length ≠ 0 then
        ⟨{ existing with type := var.type }, prog, false⟩
      else
        ⟨existing, prog, false⟩
    else
      ⟨existing, linker_error prog (type_mismatch_msg var existing), true⟩
  else
    ⟨existing, prog, false⟩

/-- linker.cpp 622-633: explicit location agreement. -/
def cv_check_location (var existing : ir_variable) (prog : ProgState) : CVResult :=
  if var.explicit_location then
    if existing.explicit_location && var.location ≠ existing.location then
      ⟨existing, linker_error prog (location_mismatch_msg var), true⟩
    else
      ⟨{ existing with location := var.location, explicit_location := true },
       prog, false⟩
  else
    ⟨existing, prog, false⟩

/-- linker.cpp 641-652: explicit binding agreement. -/
def cv_check_binding (var existing : ir_variable) (prog : ProgState) : CVResult :=
  if var.explicit_binding then
    if existing.explicit_binding && var.binding ≠ existing.binding then
      ⟨existing, linker_error prog (binding_mismatch_msg var), true⟩
    else
      ⟨{ existing with binding := var.binding, explicit_binding := true },
       prog, false⟩
  else
    ⟨existing, prog, false⟩

/-- linker.cpp 654-660: atomic counter offset agreement. -/
def cv_check_atomic (var existing : ir_variable) (prog : ProgState) : CVResult :=
  if var.type.contains_atomic && var.atomic_offset ≠ existing.atomic_offset then
    ⟨existing, linker_error prog (atomic_mismatch_msg var), true⟩
  else
    ⟨existing, prog, false⟩

def frag_depth_redeclared_msg : String :=
  "All redeclarations of gl_FragDepth in all fragment shaders in a single program must have the same set of qualifiers."

def frag_depth_used_msg : String :=
  "If gl_FragDepth is redeclared with a layout qualifier in any fragment shader, it must be redeclared with the same layout qualifier in all fragment shaders that have assignments to gl_FragDepth"

/-- linker.cpp 673-693: the two `gl_FragDepth` depth-layout checks.
These are the only mismatch errors that do not `return`. -/
def cv_check_frag_depth (var existing : ir_variable) (prog : ProgState) : CVResult :=
  if var.name = "gl_FragDepth" then
    let layout_declared := var.depth_layout ≠ ir_depth_layout.ir_depth_layout_none
    let layout_differs := var.depth_layout ≠ existing.depth_layout
    let prog1 :=
      if layout_declared && layout_differs then
        linker_error prog frag_depth_redeclared_msg
      else prog
    let prog2 :=
      if var.used && layout_differs then
        linker_error prog1 frag_depth_used_msg
      else prog1
    ⟨existing, prog2, false⟩
  else
    ⟨existing, prog, false⟩

/-- linker.cpp 710-735: constant initializers must agree by value; a
first-seen declaration without one adopts the later one's (the noted
FINISHME mutation). -/
def cv_check_initializer (var existing : ir_variable) (prog : ProgState) : CVResult :=
  match var.constant_initializer with
  | some vval =>
    match existing.constant_initializer with
    | some eval =>
      if vval ≠ eval then
        ⟨existing, linker_error prog (initializer_mismatch_msg var), true⟩
      else
        ⟨existing, prog, false⟩
    | none =>
      ⟨{ existing with constant_initializer := some vval }, prog, false⟩
  | none =>
    ⟨existing, prog, false⟩

/-- linker.cpp 737-754: a non-constant initializer mixed with any other
initializer is an error; otherwise the initializer's existence
propagates to the stored declaration. -/
def cv_check_has_initializer (var existing : ir_variable) (prog : ProgState) : CVResult :=
  if var.has_initializer then
    if existing.has_initializer
        && (var.constant_initializer == none || existing.constant_initializer == none) then
      ⟨existing, linker_error prog (mixed_initializer_msg var), true⟩
    else
      ⟨{ existing with has_initializer := true }, prog, false⟩
  else
    ⟨existing, prog, false⟩

/-- linker.cpp 756-761. -/
def cv_check_invariant (var existing : ir_variable) (prog : ProgState) : CVResult :=
  if existing.invariant ≠ var.invariant then
    ⟨existing, linker_error prog (invariant_mismatch_msg var), true⟩
  else
    ⟨existing, prog, false⟩

/-- linker.cpp 762-767. -/
def cv_check_centroid (var existing : ir_variable) (prog : ProgState) : CVResult :=
  if existing.centroid ≠ var.centroid then
    ⟨existing, linker_error prog (centroid_mismatch_msg var), true⟩
  else
    ⟨existing, prog, false⟩

/-- The whole `existing != NULL` branch (linker.cpp 597-767). -/
def cross_validate_existing (var existing : ir_variable) (prog : ProgState) : CVResult :=
  cv_andThen (cv_check_type var existing prog) (fun e p =>
  cv_andThen (cv_check_location var e p) (fun e p =>
  cv_andThen (cv_check_binding var e p) (fun e p =>
  cv_andThen (cv_check_atomic var e p) (fun e p =>
  cv_andThen (cv_check_frag_depth var e p) (fun e p =>
  cv_andThen (cv_check_initializer var e p) (fun e p =>
  cv_andThen (cv_check_has_initializer var e p) (fun e p =>
  cv_andThen (cv_check_invariant var e p) (fun e p =>
  cv_check_centroid var e p))))))))

structure CVState where
  syms : glsl_symbol_table
  prog : ProgState
  halt : Bool
  deriving Repr

/-- One `foreach_list` iteration of cross_validate_globals
(linker.cpp 577-770): skip non-variables, apply the uniforms-only and
temporary filters, then either validate against the first-seen
declaration or record this one. -/
def cross_validate_node (uniforms_only : Bool) (st : CVState)
    (node : ir_instruction) : CVState :=
  if st.halt then st else
  match node with
  | .other => st
  | .function_decl _ => st
  | .var_decl var =>
    if uniforms_only && var.mode ≠ ir_variable_mode.ir_var_uniform then st
    else if var.mode = ir_variable_mode.ir_var_temporary then st
    else
      match get_variable st.syms var.name with
      | some existing =>
        let r := cross_validate_existing var existing st.prog
        { syms := update_variable st.syms r.existing,
          prog := r.prog, halt := r.halt }
      | none =>
        { st with syms := add_variable st.syms var }

def cross_validate_shader (uniforms_only : Bool) (st : CVState) :
    Option (List ir_instruction) → CVState
  | none => st
  | some nodes => nodes.foldl (cross_validate_node uniforms_only) st

/-- cross_validate_globals (linker.cpp 563-772).  A shader-list entry
of `none` models a NULL `shader_list[i]`. -/
def cross_validate_globals (prog : ProgState)
    (shader_list : List (Option (List ir_instruction)))
    (uniforms_only : Bool) : CVState :=
  shader_list.foldl (cross_validate_shader uniforms_only)
    { syms := [], prog := prog, halt := false }

/-! ## Contiguous-slot search (find_available_slots, linker.cpp 1554-1574)

`used_mask` and `needed_mask` are 32-bit unsigned values, modelled as
naturals reduced mod `2 ^ 32`; `max_bit_to_test` is a signed int. -/

/-- One scan iteration per remaining loop step: `i` is the loop counter,
`fuel` the number of iterations still allowed (`max_bit_to_test - i + 1`). -/
def fas_scan (not_used_mask : Nat) (needed_mask : Nat) (i : Nat) : Nat → Int
  | 0 => -1
  | fuel + 1 =>
    if needed_mask &&& not_used_mask == needed_mask then (i : Int)
    else fas_scan not_used_mask ((needed_mask <<< 1) % 2 ^ 32) (i + 1) fuel

/-- linker.cpp 1554-1574.  `~used_mask` of a 32-bit value `x` is
`2 ^ 32 - 1 - x`. -/
def find_available_slots (used_mask : Nat) (needed_count : Nat) : Int :=
  let needed_mask : Nat := ((1 <<< needed_count) - 1) % 2 ^ 32
  let max_bit_to_test : Int := (8 * 4 : Int) - (needed_count : Int)
  if needed_count = 0 ∨ max_bit_to_test < 0 ∨ max_bit_to_test > 32 then -1
  else
    fas_scan (2 ^ 32 - 1 - used_mask % 2 ^ 32) needed_mask 0
      (max_bit_to_test.toNat + 1)

/-! ## Multiply-defined function detection
(link_intrastage_shaders, linker.cpp 1314-1353) -/

/-- A translation unit as this check sees it: its instruction list and
its symbol table's function entries (`symbols->get_function`). -/
structure gl_shader where
  ir : List ir_instruction
  sym_functions : List ir_function
  deriving DecidableEq, Repr

def get_function (sh : gl_shader) (n : String) : Option ir_function :=
  sh.sym_functions.find? (fun f => f.name == n)

/-- `ir_function::exact_matching_signature(NULL, &sig->parameters)`:
first signature whose parameter list matches exactly. -/
def exact_matching_signature (f : ir_function) (params : List String) :
    Option ir_function_signature :=
  f.signatures.find? (fun s => s.params == params)

/-- The `foreach_iter` over `f`'s signatures (linker.cpp 1334-1350) for
one other shader: the name of the multiply defined function, if found. -/
def md_scan_sigs (f : ir_function) (other : ir_function) :
    List ir_function_signature → Option String
  | [] => none
  | sig :: rest =>
    if !sig.is_defined || sig.is_builtin then md_scan_sigs f other rest
    else
      match exact_matching_signature other sig.params with
      | some other_sig =>
        if other_sig.is_defined && !other_sig.is_builtin then some f.name
        else md_scan_sigs f other rest
      | none => md_scan_sigs f other rest

/-- The `for j` loop (linker.cpp 1324-1351) for one function `f` of an
earlier shader, against the remaining shaders. -/
def md_scan_shaders (f : ir_function) : List gl_shader → Option String
  | [] => none
  | other_sh :: rest =>
    match get_function other_sh f.name with
    | none => md_scan_shaders f rest
    | some other =>
      match md_scan_sigs f other f.signatures with
      | some n => some n
      | none => md_scan_shaders f rest

/-- The `foreach_list` over shader i's instructions (linker.cpp 1318). -/
def md_scan_nodes (rest : List gl_shader) : List ir_instruction → Option String
  | [] => none
  | node :: nodes =>
    match node with
    | .function_decl f =>
      (match md_scan_shaders f rest with
       | some n => some n
       | none => md_scan_nodes rest nodes)
    | _ => md_scan_nodes rest nodes

/-- The full doubly nested scan (linker.cpp 1317-1353): first collision
in program order wins and triggers the only error/return. -/
def find_multiply_defined : List gl_shader → Option String
  | [] => none
  | sh :: rest =>
    match md_scan_nodes rest sh.ir with
    | some n => some n
    | none => find_multiply_defined rest

/-- The multiply-defined-function phase of `link_intrastage_shaders`:
on a collision it records the link error and returns NULL (modelled as
the `false` component). -/
def link_intrastage_md_check (prog : ProgState) (shader_list : List gl_shader) :
    ProgState × Bool :=
  match find_multiply_defined shader_list with
  | some n =>
    (linker_error prog ("function `" ++ n ++ "` is multiply defined"), false)
  | none => (prog, true)

/-! ## Static write detection and vertex-stage validation
(find_assignment_visitor linker.cpp 90-148,
 analyze_clip_usage linker.cpp 412-451,
 validate_vertex_shader_executable linker.cpp 462-506) -/

/-- Instruction-tree nodes as `find_assignment_visitor` dispatches on
them.  An assignment records `lhs->variable_referenced()->name`; a call
records, per actual argument, the matching callee parameter's mode and
the argument rvalue's referenced variable (none when the argument is
not a variable dereference), plus the return-value dereference.  The
visitor does not descend into assignments or calls
(`visit_continue_with_parent`), so their operands carry no children. -/
inductive ir_node where
  | ir_assignment (lhs_var : String)
  | ir_call (params : List (ir_variable_mode × Option String))
      (return_deref : Option String)
  | ir_if (then_branch else_branch : List ir_node)
  | ir_loop (body : List ir_node)
  | ir_function (body : List ir_node)
  | ir_other

mutual

/-- `find_assignment_visitor` on a single node (linker.cpp 98-138). -/
def find_assignment_node (n : String) : ir_node → Bool
  | .ir_assignment lhs_var => lhs_var == n
  | .ir_call params return_deref =>
    params.any (fun p =>
      (p.1 == ir_variable_mode.ir_var_function_out
        || p.1 == ir_variable_mode.ir_var_function_inout)
      && p.2 == some n)
    || return_deref == some n
  | .ir_if t e => find_assignment_list n t || find_assignment_list n e
  | .ir_loop b => find_assignment_list n b
  | .ir_function b => find_assignment_list n b
  | .ir_other => false

/-- `find_assignment_visitor::run` over an instruction list; the
visitor's `visit_stop` early exit is the short-circuit of `||`. -/
def find_assignment_list (n : String) : List ir_node → Bool
  | [] => false
  | node :: rest => find_assignment_node n node || find_assignment_list n rest

end

/-- A stage executable as the vertex validator sees it: its instruction
trees plus the symbol-table lookup of `gl_ClipDistance`'s array length
(none when `symbols->get_variable` returns NULL). -/
structure VertexShaderModel where
  ir : List ir_node
  clip_distance_length : Option Nat

/-- `prog->Vert` clip metadata written by `analyze_clip_usage`. -/
structure ClipInfo where
  UsesClipDistance : Bool
  ClipDistanceArraySize : Nat
  deriving DecidableEq, Repr

def clip_both_msg (shader_type : String) : String :=
  shader_type ++ " shader writes to both `gl_ClipVertex` and `gl_ClipDistance`\n"

/-- analyze_clip_usage (linker.cpp 412-451).  On the both-written error
the C code returns before writing `*UsesClipDistance`, so that field
keeps its previous value. -/
def analyze_clip_usage (shader_type : String) (prog : ProgState)
    (IsES : Bool) (Version : Nat) (sh : VertexShaderModel)
    (info : ClipInfo) : ProgState × ClipInfo :=
  let info0 := { info with ClipDistanceArraySize := 0 }
  if !IsES && 130 ≤ Version then
    let clip_vertex := find_assignment_list "gl_ClipVertex" sh.ir
    let clip_distance := find_assignment_list "gl_ClipDistance" sh.ir
    if clip_vertex && clip_distance then
      (linker_error prog (clip_both_msg shader_type), info0)
    else
      let info1 := { info0 with UsesClipDistance := clip_distance }
      match sh.clip_distance_length with
      | some len => (prog, { info1 with ClipDistanceArraySize := len })
      | none => (prog, info1)
  else
    (prog, { info0 with UsesClipDistance := false })

def no_position_write_msg : String :=
  "vertex shader does not write to `gl_Position`\n"

/-- validate_vertex_shader_executable (linker.cpp 462-506).  A `none`
shader models the NULL early return. -/
def validate_vertex_shader_executable (prog : ProgState)
    (IsES : Bool) (Version : Nat) (shader : Option VertexShaderModel)
    (vert : ClipInfo) : ProgState × ClipInfo :=
  match shader with
  | none => (prog, vert)
  | some sh =>
    if Version < (if IsES then 300 else 140) then
      if !(find_assignment_list "gl_Position" sh.ir) then
        (linker_error prog no_position_write_msg, vert)
      else
        analyze_clip_usage "vertex" prog IsES Version sh vert
    else
      analyze_clip_usage "vertex" prog IsES Version sh vert

/-! ## Attribute / color location assignment
(assign_attribute_or_color_locations, linker.cpp 1593-1804)

The target-dependent constants `VERT_ATTRIB_GENERIC0` /
`FRAG_RESULT_DATA0` live in headers outside src/, so the derived
`generic_base` is kept as an explicit parameter, as is
`glsl_type::count_attribute_slots()` (a collaborator that computes
per-variable slot counts from a type) and the result of the
`find_deref_visitor` scan for `gl_Vertex`. -/

inductive shader_target where
  | vertex
  | fragment
  deriving DecidableEq, Repr

/-- An application binding table (`string_to_uint_map::get`). -/
abbrev Bindings := List (String × Nat)

def bindings_get (b : Bindings) (n : String) : Option Nat :=
  (b.find? (fun p => p.1 == n)).map (fun p => p.2)

def alloc_direction (target_index : shader_target) : ir_variable_mode :=
  match target_index with
  | .vertex => ir_variable_mode.ir_var_shader_in
  | .fragment => ir_variable_mode.ir_var_shader_out

/-- State threaded through the first pass of the allocation loop.
`to_assign` collects `(slots, position-in-ir)` pairs in write order —
position stands in for the `ir_variable *` the C array stores.
`halted` models the `return false` paths. -/
structure AllocState where
  used_locations : Nat
  to_assign : List (Nat × Nat)
  ir : List ir_instruction
  prog : ProgState
  halted : Bool
  deriving Repr

def invalid_explicit_location_msg (loc_shown : Int) (n : String) : String :=
  "invalid explicit location " ++ toString loc_shown ++ " specified for `" ++ n ++ "`\n"

def alloc_target_string (target_index : shader_target) : String :=
  match target_index with
  | .vertex => "vertex shader input"
  | .fragment => "fragment shader output"

def insufficient_msg_pass1 (target_index : shader_target) (n : String)
    (used use_mask attr : Nat) : String :=
  "insufficient contiguous locations available for "
    ++ alloc_target_string target_index ++ " `" ++ n ++ "` "
    ++ toString used ++ " " ++ toString use_mask ++ " " ++ toString attr

def insufficient_msg_pass2 (target_index : shader_target) (n : String) : String :=
  "insufficient contiguous locations available for "
    ++ alloc_target_string target_index ++ " `" ++ n ++ "`"

/-- linker.cpp 1668-1689: apply an application-supplied binding to a
variable without an explicit location (the `else if` arms of the
explicit-location check). -/
def alloc_apply_bindings (target_index : shader_target)
    (AttributeBindings FragDataBindings FragDataIndexBindings : Bindings)
    (var0 : ir_variable) : ir_variable :=
  if var0.explicit_location then var0
  else if target_index = shader_target.vertex then
    match bindings_get AttributeBindings var0.name with
    | some binding =>
      { var0 with location := (binding : Int),
                  is_unmatched_generic_inout := false }
    | none => var0
  else
    match bindings_get FragDataBindings var0.name with
    | some binding =>
      let v1 := { var0 with location := (binding : Int),
                            is_unmatched_generic_inout := false }
      match bindings_get FragDataIndexBindings var0.name with
      | some idx => { v1 with index := (idx : Int) }
      | none => v1
    | none => var0

/-- One iteration of the first `foreach_list` loop
(linker.cpp 1652-1757) for the variable at position `pos`. -/
def alloc_pass1_step (target_index : shader_target)
    (max_index generic_base : Nat)
    (AttributeBindings FragDataBindings FragDataIndexBindings : Bindings)
    (count_attribute_slots : glsl_type → Nat)
    (st : AllocState) (pos : Nat) (node : ir_instruction) : AllocState :=
  if st.halted then st else
  match node with
  | .other => st
  | .function_decl _ => st
  | .var_decl var0 =>
    if var0.mode ≠ alloc_direction target_index then st
    else
      -- linker.cpp 1658-1689: explicit-location validation or
      -- application-binding application.
      if var0.explicit_location &&
          (((max_index + generic_base : Nat) : Int) ≤ var0.location
            || var0.location < 0) then
        { st with
          prog := linker_error st.prog (invalid_explicit_location_msg
            (if var0.location < 0 then var0.location
             else var0.location - (generic_base : Int)) var0.name),
          halted := true }
      else
        let var := alloc_apply_bindings target_index AttributeBindings
          FragDataBindings FragDataIndexBindings var0
        -- linker.cpp 1696-1757
        let slots := count_attribute_slots var.type
        let st1 := { st with ir := st.ir.set pos (.var_decl var) }
        if var.location ≠ -1 then
          if (generic_base : Int) ≤ var.location && var.index < 1 then
            let attr : Nat := (var.location - (generic_base : Int)).toNat
            let use_mask : Nat := ((1 <<< slots) - 1) % 2 ^ 32
            let shifted : Nat := (use_mask <<< attr) % 2 ^ 32
            if (2 ^ 32 - 1 - shifted) &&& st1.used_locations ≠ st1.used_locations then
              { st1 with
                prog := linker_error st1.prog (insufficient_msg_pass1
                  target_index var.name st1.used_locations use_mask attr),
                halted := true }
            else
              { st1 with used_locations := st1.used_locations ||| shifted }
          else st1
        else
          { st1 with to_assign := st1.to_assign ++ [(slots, pos)] }

/-- The first pass over the whole instruction list, tracking positions. -/
def alloc_pass1 (target_index : shader_target)
    (max_index generic_base : Nat)
    (ab fdb fdib : Bindings) (cas : glsl_type → Nat)
    (st : AllocState) (pos : Nat) : List ir_instruction → AllocState
  | [] => st
  | node :: rest =>
    alloc_pass1 target_index max_index generic_base ab fdb fdib cas
      (alloc_pass1_step target_index max_index generic_base ab fdb fdib cas
        st pos node)
      (pos + 1) rest

/-- The qsort on `temp_attr::compare` orders by `slots` descending;
ties are left in an implementation-fixed (here: stable) order. -/
def temp_attr_insert (x : Nat × Nat) : List (Nat × Nat) → List (Nat × Nat)
  | [] => [x]
  | y :: ys => if y.1 < x.1 then x :: y :: ys else y :: temp_attr_insert x ys

def temp_attr_sort : List (Nat × Nat) → List (Nat × Nat)
  | [] => []
  | x :: xs => temp_attr_insert x (temp_attr_sort xs)

/-- The final assignment loop (linker.cpp 1779-1801) over the sorted
`to_assign` entries. -/
def alloc_pass2 (target_index : shader_target) (generic_base : Nat)
    (st : AllocState) : List (Nat × Nat) → AllocState
  | [] => st
  | (slots, pos) :: rest =>
    if st.halted then st else
    let use_mask : Nat := ((1 <<< slots) - 1) % 2 ^ 32
    let location := find_available_slots st.used_locations slots
    let vname :=
      match st.ir.get? pos with
      | some (.var_decl v) => v.name
      | _ => ""
    if location < 0 then
      { st with
        prog := linker_error st.prog (insufficient_msg_pass2 target_index vname),
        halted := true }
    else
      let st1 :=
        { st with
          ir := st.ir.set pos (match st.ir.get? pos with
            | some (.var_decl v) =>
              .var_decl { v with location := (generic_base : Int) + location,
                                 is_unmatched_generic_inout := false }
            | some node => node
            | none => .other),
          used_locations :=
            st.used_locations ||| ((use_mask <<< location.toNat) % 2 ^ 32) }
      alloc_pass2 target_index generic_base st1 rest

/-- All inputs of one allocation run, bundled so that determinism can
be stated as: equal inputs give equal outcomes. -/
structure AllocInputs where
  target_index : shader_target
  max_index : Nat
  generic_base : Nat
  AttributeBindings : Bindings
  FragDataBindings : Bindings
  FragDataIndexBindings : Bindings
  count_attribute_slots : glsl_type → Nat
  /-- result of the `find_deref_visitor` scan for `gl_Vertex` -/
  uses_gl_vertex : Bool
  prog : ProgState
  shader : Option (List ir_instruction)

structure AllocResult where
  prog : ProgState
  ir : List ir_instruction
  ok : Bool
  deriving Repr

/-- assign_attribute_or_color_locations (linker.cpp 1593-1804). -/
def assign_attribute_or_color_locations (inp : AllocInputs) : AllocResult :=
  -- linker.cpp 1599-1600
  let used0 : Nat :=
    if 32 ≤ inp.max_index then 2 ^ 32 - 1
    else 2 ^ 32 - 1 - (((1 <<< inp.max_index) - 1) % 2 ^ 32)
  match inp.shader with
  | none => ⟨inp.prog, [], true⟩
  | some ir0 =>
    let st := alloc_pass1 inp.target_index inp.max_index inp.generic_base
      inp.AttributeBindings inp.FragDataBindings inp.FragDataIndexBindings
      inp.count_attribute_slots
      ⟨used0, [], ir0, inp.prog, false⟩ 0 ir0
    if st.halted then ⟨st.prog, st.ir, false⟩
    else if st.to_assign.length = 0 then ⟨st.prog, st.ir, true⟩
    else
      let sorted := temp_attr_sort st.to_assign
      let used1 :=
        if inp.target_index = shader_target.vertex && inp.uses_gl_vertex then
          st.used_locations ||| 1
        else st.used_locations
      let fin := alloc_pass2 inp.target_index inp.generic_base
        { st with used_locations := used1 } sorted
      ⟨fin.prog, fin.ir, !fin.halted⟩

/-- A variable of the target direction that lacks both an explicit
location and an application-supplied binding — exactly the variables
the claim counts against the 16-element `to_assign` array. -/
def lacks_explicit_and_binding (target_index : shader_target)
    (ab fdb : Bindings) : ir_instruction → Bool
  | .var_decl v =>
    v.mode == alloc_direction target_index
      && !v.explicit_location
      && (bindings_get
            (match target_index with
             | .vertex => ab
             | .fragment => fdb) v.name).isNone
  | _ => false

def count_unassigned (target_index : shader_target) (ab fdb : Bindings)
    (ir : List ir_instruction) : Nat :=
  ir.countP (fun node => lacks_explicit_and_binding target_index ab fdb node)

/-! ## Statement-support definitions -/

/-- The log entry `validate_vertex_shader_executable` appends for a
missing static `gl_Position` write. -/
def missing_position_entry : LogEntry :=
  ⟨true, "error: " ++ no_position_write_msg⟩

/-- The two cross-validation errors that do not return early are the
`gl_FragDepth` depth-layout ones; this recognises their log entries. -/
def is_frag_depth_layout_entry (e : LogEntry) : Bool :=
  e.text == "error: " ++ frag_depth_redeclared_msg
    || e.text == "error: " ++ frag_depth_used_msg

/-- The type check of linker.cpp 598-611 passes: identical types, or
arrays of the same element type with one implicitly sized. -/
def cv_types_match (var existing : ir_variable) : Prop :=
  var.type = existing.type ∨
    (var.type.is_array = true ∧ existing.type.is_array = true ∧
     var.type.fields_array = existing.type.fields_array ∧
     (var.type.length = 0 ∨ existing.type.length = 0))

/-- No explicit-location conflict (linker.cpp 622-629). -/
def cv_locations_match (var existing : ir_variable) : Prop :=
  ¬(var.explicit_location = true ∧ existing.explicit_location = true ∧
    var.location ≠ existing.location)

/-- No explicit-binding conflict (linker.cpp 641-648). -/
def cv_bindings_match (var existing : ir_variable) : Prop :=
  ¬(var.explicit_binding = true ∧ existing.explicit_binding = true ∧
    var.binding ≠ existing.binding)

/-- No atomic-counter offset conflict (linker.cpp 654-660). -/
def cv_atomics_match (var existing : ir_variable) : Prop :=
  ¬(var.type.contains_atomic = true ∧ var.atomic_offset ≠ existing.atomic_offset)

/-- No `gl_FragDepth` depth-layout conflict (linker.cpp 673-693). -/
def cv_depth_layouts_match (var existing : ir_variable) : Prop :=
  var.name ≠ "gl_FragDepth" ∨ var.depth_layout = existing.depth_layout

/-- Constant initializers, where both present, agree in value
(linker.cpp 710-717). -/
def cv_initializers_match (var existing : ir_variable) : Prop :=
  ∀ a b, var.constant_initializer = some a →
    existing.constant_initializer = some b → a = b

/-- The later declaration does not mix a non-constant initializer with
an earlier initializer (linker.cpp 737-746; per the C4 finding, only
the later declaration's initializer being non-constant can trip this
check). -/
def cv_no_mixed_initializers (var existing : ir_variable) : Prop :=
  ¬(var.has_initializer = true ∧ existing.has_initializer = true ∧
    var.constant_initializer = none)

/-- Behaviour contract of one cross-validation check step: the log only
grows; any growth consists of error-path entries and clears
`LinkStatus`; an early return implies the log grew; and a step that
continues grew the log only by `gl_FragDepth` depth-layout errors. -/
def CVCheckOK (chk : ir_variable → ir_variable → ProgState → CVResult) : Prop :=
  ∀ var existing prog, ∃ new,
    (chk var existing prog).prog.InfoLog = prog.InfoLog ++ new ∧
    ((chk var existing prog).prog.LinkStatus = true → prog.LinkStatus = true) ∧
    (new ≠ [] → (chk var existing prog).prog.LinkStatus = false) ∧
    (∀ e ∈ new, e.fromErrorPath = true) ∧
    ((chk var existing prog).halt = true → new ≠ []) ∧
    ((chk var existing prog).halt = false →
      ∀ e ∈ new, is_frag_depth_layout_entry e = true)

/-- Translation unit `sh1` defines, in its instruction list, a
non-built-in signature named `fname` with parameter list `ps`. -/
def defines_sig_in_ir (sh : gl_shader) (fname : String) (ps : List String) : Prop :=
  ∃ f, ir_instruction.function_decl f ∈ sh.ir ∧ f.name = fname ∧
    ∃ sig ∈ f.signatures, sig.params = ps ∧ sig.is_defined = true ∧
      sig.is_builtin = false

/-- Translation unit `sh2` defines a non-built-in signature named
`fname` with parameter list `ps`, reachable the way the checker reaches
it: through the unit's symbol table and first exact parameter match
(signatures of one function have unique parameter lists, so the first
match is the only one). -/
def defines_sig_in_symbols (sh : gl_shader) (fname : String) (ps : List String) : Prop :=
  ∃ f, get_function sh fname = some f ∧
    ∃ sig, exact_matching_signature f ps = some sig ∧
      sig.is_defined = true ∧ sig.is_builtin = false

/-- Two distinct translation units of the stage both define the same
non-built-in signature.  The decomposition orders them as the checker
visits them: `sh1` before `sh2`. -/
def HasMultiplyDefined (l : List gl_shader) : Prop :=
  ∃ pre sh1 mid sh2 post fname ps,
    l = pre ++ sh1 :: mid ++ sh2 :: post ∧
    defines_sig_in_ir sh1 fname ps ∧
    defines_sig_in_symbols sh2 fname ps

/-- `n` really names a multiply defined function of the list. -/
def MultiplyDefinedName (l : List gl_shader) (n : String) : Prop :=
  ∃ pre sh1 mid sh2 post ps,
    l = pre ++ sh1 :: mid ++ sh2 :: post ∧
    defines_sig_in_ir sh1 n ps ∧
    defines_sig_in_symbols sh2 n ps

/-! Sample data for witnesses and closed counterexamples. -/

/-- A plain generic attribute variable. -/
def mkAttrVar (nm : String) (expl : Bool) (loc : Int) : ir_variable :=
  { name := nm, type := .base "vec4" false, mode := .ir_var_shader_in,
    explicit_location := expl, location := loc, explicit_binding := false,
    binding := 0, atomic_offset := 0,
    depth_layout := .ir_depth_layout_none, used := false,
    constant_initializer := none, has_initializer := false,
    invariant := false, centroid := false, index := 0,
    is_unmatched_generic_inout := true }

/-- A plain global (uniform) declaration for cross-validation tests. -/
def mkGlobalVar (nm : String) : ir_variable :=
  { name := nm, type := .base "float" false, mode := .ir_var_uniform,
    explicit_location := false, location := -1, explicit_binding := false,
    binding := 0, atomic_offset := 0,
    depth_layout := .ir_depth_layout_none, used := false,
    constant_initializer := none, has_initializer := false,
    invariant := false, centroid := false, index := 0,
    is_unmatched_generic_inout := false }

/-- Four same-named-pair declarations: `a` twice with differing
explicit locations, then `b` twice with differing centroid qualifiers.
Under the claimed continue-on-mismatch behaviour both mismatches would
be reported. -/
def c1_cx_shader : List ir_instruction :=
  [.var_decl { mkGlobalVar "a" with explicit_location := true, location := 0 },
   .var_decl { mkGlobalVar "a" with explicit_location := true, location := 1 },
   .var_decl (mkGlobalVar "b"),
   .var_decl { mkGlobalVar "b" with centroid := true }]

/-- Same-named pair: a declaration carrying a non-constant initializer
(`has_initializer` without a constant value) seen first, then a
declaration with a constant initializer. -/
def c4_shader : List ir_instruction :=
  [.var_decl { mkGlobalVar "x" with has_initializer := true },
   .var_decl { mkGlobalVar "x" with
               has_initializer := true, constant_initializer := some 1 }]

/-- The same pair in the opposite order. -/
def c4_shader_rev : List ir_instruction :=
  [.var_decl { mkGlobalVar "x" with
               has_initializer := true, constant_initializer := some 1 },
   .var_decl { mkGlobalVar "x" with has_initializer := true }]

/-- A concrete allocation input set: one generic vertex input needing a
linker-assigned location. -/
def c9_inputs : AllocInputs :=
  { target_index := .vertex, max_index := 16, generic_base := 16,
    AttributeBindings := [], FragDataBindings := [],
    FragDataIndexBindings := [], count_attribute_slots := fun _ => 1,
    uses_gl_vertex := false, prog := link_reset,
    shader := some [.var_decl (mkAttrVar "a" false (-1))] }

/-- 17 direction variables lacking both an explicit location and a
binding, preceded by a variable with an invalid explicit location that
makes pass 1 return before reaching them. -/
def c10_bad_ir : List ir_instruction :=
  .var_decl (mkAttrVar "bad" true (-5))
    :: List.replicate 17 (.var_decl (mkAttrVar "v" false (-1)))

def c8_foo_sig : ir_function_signature := ⟨[], true, false⟩

def c8_foo : ir_function := ⟨"foo", [c8_foo_sig]⟩

/-- A translation unit defining `void foo()`. -/
def c8_unit : gl_shader := ⟨[.function_decl c8_foo], [c8_foo]⟩

/-! # Theorems -/

/-! ## C2: boundary behaviour of the contiguous-slot search -/

/-- C2: for every used-slot bitmask, a request for zero slots or for
more slots than the 32 bits of the mask is rejected with -1 by the
initial guard of `find_available_slots`, before any scan iteration runs
(the mask is taken by value, so the caller's mask is never modified). -/
theorem c2_find_available_slots_boundary (used_mask needed_count : Nat)
    (h : needed_count = 0 ∨ 32 < needed_count) :
    find_available_slots used_mask needed_count = -1 := by
  unfold find_available_slots
  have hc : needed_count = 0 ∨ ((8 * 4 : Int) - (needed_count : Int)) < 0 ∨
      ((8 * 4 : Int) - (needed_count : Int)) > 32 := by
    rcases h with h | h
    · exact Or.inl h
    · exact Or.inr (Or.inl (by omega))
  simp only [if_pos hc]

/-- Witness for C2 at the two concrete boundary inputs. -/
theorem c2_witness :
    ((0 : Nat) = 0 ∨ 32 < (0 : Nat)) ∧ find_available_slots 5 0 = -1 ∧
    ((33 : Nat) = 0 ∨ 32 < (33 : Nat)) ∧ find_available_slots 5 33 = -1 :=
  ⟨Or.inl rfl, c2_find_available_slots_boundary 5 0 (Or.inl rfl),
   Or.inr (by decide), c2_find_available_slots_boundary 5 33 (Or.inr (by decide))⟩

/-! ## C5: link-status / log invariant -/

theorem applyLogOp_status_mono (prog : ProgState) (op : LinkerLogOp)
    (h : (applyLogOp prog op).LinkStatus = true) : prog.LinkStatus = true := by
  cases op with
  | err m => simp [applyLogOp, linker_error] at h
  | warn m => simpa [applyLogOp, linker_warning] using h

theorem applyLogOp_inv (prog : ProgState) (op : LinkerLogOp)
    (h : prog.LinkStatus = false → ∃ e ∈ prog.InfoLog, e.fromErrorPath = true) :
    (applyLogOp prog op).LinkStatus = false →
      ∃ e ∈ (applyLogOp prog op).InfoLog, e.fromErrorPath = true := by
  cases op with
  | err m =>
    intro _
    refine ⟨⟨true, "error: " ++ m⟩, ?_, rfl⟩
    simp [applyLogOp, linker_error]
  | warn m =>
    intro hf
    simp only [applyLogOp, linker_warning] at hf
    obtain ⟨e, he, hee⟩ := h hf
    refine ⟨e, ?_, hee⟩
    simp only [applyLogOp, linker_warning]
    exact List.mem_append_left _ he

theorem runLog_inv (ops : List LinkerLogOp) (prog : ProgState)
    (h : prog.LinkStatus = false → ∃ e ∈ prog.InfoLog, e.fromErrorPath = true) :
    (runLog prog ops).LinkStatus = false →
      ∃ e ∈ (runLog prog ops).InfoLog, e.fromErrorPath = true := by
  induction ops generalizing prog with
  | nil => exact h
  | cons op rest ih =>
    exact ih (applyLogOp prog op) (applyLogOp_inv prog op h)

theorem runLog_status_mono (ops : List LinkerLogOp) (prog : ProgState)
    (h : (runLog prog ops).LinkStatus = true) : prog.LinkStatus = true := by
  induction ops generalizing prog with
  | nil => exact h
  | cons op rest ih => exact applyLogOp_status_mono prog op (ih _ h)

/-- C5: after the `link_shaders` reset, across any sequence of
`linker_error` / `linker_warning` operations (the only writers of
`LinkStatus` and the info log), a false `LinkStatus` implies the log
holds an error-path entry, and once false it never turns back to true —
in particular no warning clears it. -/
theorem c5_link_status_invariant (ops more : List LinkerLogOp) :
    ((runLog link_reset ops).LinkStatus = false →
      ∃ e ∈ (runLog link_reset ops).InfoLog, e.fromErrorPath = true) ∧
    ((runLog link_reset ops).LinkStatus = false →
      (runLog link_reset (ops ++ more)).LinkStatus = false) := by
  constructor
  · exact runLog_inv ops link_reset (by intro h; simp [link_reset] at h)
  · intro hfalse
    rw [runLog, List.foldl_append]
    by_contra htrue
    rw [Bool.not_eq_false] at htrue
    have := runLog_status_mono more (runLog link_reset ops) htrue
    rw [this] at hfalse
    exact Bool.true_eq_false.mp hfalse

/-- Witness for C5 at a concrete operation sequence: an error followed
by a warning leaves `LinkStatus` false with an error entry logged. -/
theorem c5_witness :
    ((runLog link_reset [.err "a\n"]).LinkStatus = false →
      ∃ e ∈ (runLog link_reset [.err "a\n"]).InfoLog, e.fromErrorPath = true) ∧
    ((runLog link_reset [.err "a\n"]).LinkStatus = false →
      (runLog link_reset ([.err "a\n"] ++ [.warn "w\n"])).LinkStatus = false) :=
  c5_link_status_invariant [.err "a\n"] [.warn "w\n"]

/-! ## C6: the warning path's prefix (a code bug)

linker.cpp 296-306 (`linker_warning`) prepends the very same
"error: " string as `linker_error` (linker.cpp 282-293); warning
entries are therefore textually indistinguishable from error entries,
contradicting the claimed distinct prefixing. -/

/-- C6 failing input evaluated: for the same message, the entry text
appended by the warning path equals the entry text appended by the
error path — both read "error: foo". -/
theorem c6_warning_prefix_equals_error_prefix :
    ((linker_warning link_reset "foo").InfoLog.map (fun e => e.text))
      = ["error: foo"] ∧
    ((linker_error link_reset "foo").InfoLog.map (fun e => e.text))
      = ["error: foo"] := by
  constructor <;> decide

/-! ## C1: cross-validation mismatch handling -/

/-- A check step that changes nothing but the stored declaration and
continues satisfies the step contract (stated in the form the
projections of its `CVResult` reduce to). -/
theorem cvOK_of_noop (p : ProgState) :
    ∃ new : List LogEntry, p.InfoLog = p.InfoLog ++ new ∧
      (p.LinkStatus = true → p.LinkStatus = true) ∧
      (new ≠ [] → p.LinkStatus = false) ∧
      (∀ x ∈ new, x.fromErrorPath = true) ∧
      ((false : Bool) = true → new ≠ []) ∧
      ((false : Bool) = false → ∀ x ∈ new, is_frag_depth_layout_entry x = true) :=
  ⟨[], by simp, fun h => h, by simp, by simp, by simp, by simp⟩

/-- A check step that records one error and returns satisfies the step
contract (same pre-reduced form). -/
theorem cvOK_of_error (p : ProgState) (m : String) :
    ∃ new, (linker_error p m).InfoLog = p.InfoLog ++ new ∧
      ((linker_error p m).LinkStatus = true → p.LinkStatus = true) ∧
      (new ≠ [] → (linker_error p m).LinkStatus = false) ∧
      (∀ x ∈ new, x.fromErrorPath = true) ∧
      ((true : Bool) = true → new ≠ []) ∧
      ((true : Bool) = false → ∀ x ∈ new, is_frag_depth_layout_entry x = true) :=
  ⟨[⟨true, "error: " ++ m⟩], rfl, by simp [linker_error],
   by simp [linker_error], by simp, by simp, by simp⟩

theorem cvCheckOK_type : CVCheckOK cv_check_type := by
  intro var existing prog
  unfold cv_check_type
  split
  · split
    · split
      · exact cvOK_of_noop _
      · exact cvOK_of_noop _
    · exact cvOK_of_error _ _
  · exact cvOK_of_noop _

theorem cvCheckOK_location : CVCheckOK cv_check_location := by
  intro var existing prog
  unfold cv_check_location
  split
  · split
    · exact cvOK_of_error _ _
    · exact cvOK_of_noop _
  · exact cvOK_of_noop _

theorem cvCheckOK_binding : CVCheckOK cv_check_binding := by
  intro var existing prog
  unfold cv_check_binding
  split
  · split
    · exact cvOK_of_error _ _
    · exact cvOK_of_noop _
  · exact cvOK_of_noop _

theorem cvCheckOK_atomic : CVCheckOK cv_check_atomic := by
  intro var existing prog
  unfold cv_check_atomic
  split
  · exact cvOK_of_error _ _
  · exact cvOK_of_noop _

theorem cvCheckOK_frag_depth : CVCheckOK cv_check_frag_depth := by
  intro var existing prog
  unfold cv_check_frag_depth
  split
  · dsimp only
    split
    · split
      · -- both depth-layout errors fire; neither returns
        refine ⟨[⟨true, "error: " ++ frag_depth_redeclared_msg⟩,
                 ⟨true, "error: " ++ frag_depth_used_msg⟩], ?_, ?_, ?_, ?_, ?_, ?_⟩
        · simp [linker_error]
        · simp [linker_error]
        · simp [linker_error]
        · intro x hx
          rcases List.mem_cons.mp hx with rfl | hx
          · rfl
          · rcases List.mem_cons.mp hx with rfl | hx
            · rfl
            · cases hx
        · simp
        · intro _ x hx
          rcases List.mem_cons.mp hx with rfl | hx
          · simp [is_frag_depth_layout_entry]
          · rcases List.mem_cons.mp hx with rfl | hx
            · simp [is_frag_depth_layout_entry]
            · cases hx
      · -- only the used-with-differing-layout error fires
        refine ⟨[⟨true, "error: " ++ frag_depth_used_msg⟩], ?_, ?_, ?_, ?_, ?_, ?_⟩
        · simp [linker_error]
        · simp [linker_error]
        · simp [linker_error]
        · intro x hx
          rcases List.mem_cons.mp hx with rfl | hx
          · rfl
          · cases hx
        · simp
        · intro _ x hx
          rcases List.mem_cons.mp hx with rfl | hx
          · simp [is_frag_depth_layout_entry]
          · cases hx
    · split
      · -- only the redeclaration error fires
        refine ⟨[⟨true, "error: " ++ frag_depth_redeclared_msg⟩], ?_, ?_, ?_, ?_, ?_, ?_⟩
        · simp [linker_error]
        · simp [linker_error]
        · simp [linker_error]
        · intro x hx
          rcases List.mem_cons.mp hx with rfl | hx
          · rfl
          · cases hx
        · simp
        · intro _ x hx
          rcases List.mem_cons.mp hx with rfl | hx
          · simp [is_frag_depth_layout_entry]
          · cases hx
      · exact cvOK_of_noop _
  · exact cvOK_of_noop _

theorem cvCheckOK_initializer : CVCheckOK cv_check_initializer := by
  intro var existing prog
  unfold cv_check_initializer
  split
  · split
    · split
      · exact cvOK_of_error _ _
      · exact cvOK_of_noop _
    · exact cvOK_of_noop _
  · exact cvOK_of_noop _

theorem cvCheckOK_has_initializer : CVCheckOK cv_check_has_initializer := by
  intro var existing prog
  unfold cv_check_has_initializer
  split
  · split
    · exact cvOK_of_error _ _
    · exact cvOK_of_noop _
  · exact cvOK_of_noop _

theorem cvCheckOK_invariant : CVCheckOK cv_check_invariant := by
  intro var existing prog
  unfold cv_check_invariant
  split
  · exact cvOK_of_error _ _
  · exact cvOK_of_noop _

theorem cvCheckOK_centroid : CVCheckOK cv_check_centroid := by
  intro var existing prog
  unfold cv_check_centroid
  split
  · exact cvOK_of_error _ _
  · exact cvOK_of_noop _

theorem cv_andThen_halt_true {r : CVResult}
    {f : ir_variable → ProgState → CVResult} (h : r.halt = true) :
    cv_andThen r f = r := by
  unfold cv_andThen
  rw [h]
  simp

theorem cv_andThen_halt_false {r : CVResult}
    {f : ir_variable → ProgState → CVResult} (h : r.halt = false) :
    cv_andThen r f = f r.existing r.prog := by
  unfold cv_andThen
  rw [h]
  simp

theorem cv_andThen_mk_false (e : ir_variable) (p : ProgState)
    (f : ir_variable → ProgState → CVResult) :
    cv_andThen ⟨e, p, false⟩ f = f e p := rfl

theorem cv_andThen_mk_true (e : ir_variable) (p : ProgState)
    (f : ir_variable → ProgState → CVResult) :
    cv_andThen ⟨e, p, true⟩ f = ⟨e, p, true⟩ := rfl

/-- The step contract composes through the early-return chaining. -/
theorem cvCheckOK_andThen {c k : ir_variable → ir_variable → ProgState → CVResult}
    (hc : CVCheckOK c) (hk : CVCheckOK k) :
    CVCheckOK (fun var e p => cv_andThen (c var e p) (fun e2 p2 => k var e2 p2)) := by
  intro var existing prog
  dsimp only
  obtain ⟨n1, h1log, h1mono, h1st, h1err, h1halt, h1cont⟩ := hc var existing prog
  cases hh : (c var existing prog).halt with
  | true =>
    rw [cv_andThen_halt_true hh]
    refine ⟨n1, h1log, h1mono, h1st, h1err, fun _ => h1halt hh, ?_⟩
    intro hfalse
    exact absurd (hh.symm.trans hfalse) (by simp)
  | false =>
    obtain ⟨n2, h2log, h2mono, h2st, h2err, h2halt, h2cont⟩ :=
      hk var (c var existing prog).existing (c var existing prog).prog
    rw [cv_andThen_halt_false hh]
    refine ⟨n1 ++ n2, ?_, ?_, ?_, ?_, ?_, ?_⟩
    · rw [h2log, h1log, List.append_assoc]
    · intro h; exact h1mono (h2mono h)
    · intro hne
      by_cases h2 : n2 = []
      · have h1 : n1 ≠ [] := by
          intro h1e
          exact hne (by rw [h1e, h2]; rfl)
        cases hstat : (k var (c var existing prog).existing
            (c var existing prog).prog).prog.LinkStatus with
        | false => rfl
        | true =>
          have hcs := h2mono hstat
          rw [h1st h1] at hcs
          exact absurd hcs (by simp)
      · exact h2st h2
    · intro x hx
      rcases List.mem_append.mp hx with h | h
      · exact h1err x h
      · exact h2err x h
    · intro hhalt hnil
      rcases List.append_eq_nil.mp hnil with ⟨hn1, hn2⟩
      exact h2halt hhalt hn2
    · intro hhalt x hx
      rcases List.mem_append.mp hx with h | h
      · exact h1cont hh x h
      · exact h2cont hhalt x h

/-! Per-check evaluation lemmas: each check's exact outcome when its
mismatch condition fires, and its pass-through behaviour (with the
fields later checks read preserved) when it does not. -/

theorem cv_check_type_fire (var existing : ir_variable) (prog : ProgState)
    (h1 : var.type ≠ existing.type)
    (h2 : ¬(var.type.is_array = true ∧ existing.type.is_array = true ∧
      var.type.fields_array = existing.type.fields_array ∧
      (var.type.length = 0 ∨ existing.type.length = 0))) :
    cv_check_type var existing prog
      = ⟨existing, linker_error prog (type_mismatch_msg var existing), true⟩ := by
  unfold cv_check_type
  rw [if_pos h1, if_neg ?hc]
  case hc =>
    intro hc
    simp only [Bool.and_eq_true, beq_iff_eq, Bool.or_eq_true,
      Nat.beq_eq_true_eq] at hc
    exact h2 ⟨hc.1.1.1, hc.1.1.2, hc.1.2, hc.2⟩

theorem cv_check_type_clean (var existing : ir_variable) (prog : ProgState)
    (h : cv_types_match var existing) :
    ∃ e1, cv_check_type var existing prog = ⟨e1, prog, false⟩ ∧
      e1.explicit_location = existing.explicit_location ∧
      e1.location = existing.location ∧
      e1.explicit_binding = existing.explicit_binding ∧
      e1.binding = existing.binding ∧
      e1.atomic_offset = existing.atomic_offset ∧
      e1.depth_layout = existing.depth_layout ∧
      e1.constant_initializer = existing.constant_initializer ∧
      e1.has_initializer = existing.has_initializer ∧
      e1.invariant = existing.invariant ∧
      e1.centroid = existing.centroid := by
  unfold cv_check_type
  by_cases ht : var.type = existing.type
  · rw [if_neg (by simp [ht])]
    exact ⟨existing, rfl, rfl, rfl, rfl, rfl, rfl, rfl, rfl, rfl, rfl, rfl⟩
  · rcases h with h | ⟨h1, h2, h3, h4⟩
    · exact absurd h ht
    · rw [if_pos ht, if_pos (by
        rw [h1, h2]
        simp only [Bool.true_and, Bool.and_eq_true, beq_iff_eq,
          Bool.or_eq_true, Nat.beq_eq_true_eq]
        exact ⟨h3, h4⟩)]
      by_cases hl : var.type.length ≠ 0
      · rw [if_pos hl]
        exact ⟨{ existing with type := var.type },
          rfl, rfl, rfl, rfl, rfl, rfl, rfl, rfl, rfl, rfl, rfl⟩
      · rw [if_neg hl]
        exact ⟨existing, rfl, rfl, rfl, rfl, rfl, rfl, rfl, rfl, rfl, rfl, rfl⟩

theorem cv_check_location_fire (var existing : ir_variable) (prog : ProgState)
    (h1 : var.explicit_location = true) (h2 : existing.explicit_location = true)
    (h3 : var.location ≠ existing.location) :
    cv_check_location var existing prog
      = ⟨existing, linker_error prog (location_mismatch_msg var), true⟩ := by
  unfold cv_check_location
  rw [if_pos h1, if_pos (by rw [h2]; simp [h3])]

theorem cv_check_location_clean (var existing : ir_variable) (prog : ProgState)
    (h : cv_locations_match var existing) :
    ∃ e1, cv_check_location var existing prog = ⟨e1, prog, false⟩ ∧
      e1.explicit_binding = existing.explicit_binding ∧
      e1.binding = existing.binding ∧
      e1.atomic_offset = existing.atomic_offset ∧
      e1.depth_layout = existing.depth_layout ∧
      e1.constant_initializer = existing.constant_initializer ∧
      e1.has_initializer = existing.has_initializer ∧
      e1.invariant = existing.invariant ∧
      e1.centroid = existing.centroid := by
  unfold cv_check_location
  by_cases he : var.explicit_location = true
  · have hcond : ¬((existing.explicit_location
        && decide (var.location ≠ existing.location)) = true) := by
      intro hc
      rw [Bool.and_eq_true] at hc
      exact h ⟨he, hc.1, of_decide_eq_true hc.2⟩
    rw [if_pos he, if_neg hcond]
    exact ⟨{ existing with location := var.location, explicit_location := true },
      rfl, rfl, rfl, rfl, rfl, rfl, rfl, rfl, rfl⟩
  · rw [if_neg he]
    exact ⟨existing, rfl, rfl, rfl, rfl, rfl, rfl, rfl, rfl, rfl⟩

theorem cv_check_binding_fire (var existing : ir_variable) (prog : ProgState)
    (h1 : var.explicit_binding = true) (h2 : existing.explicit_binding = true)
    (h3 : var.binding ≠ existing.binding) :
    cv_check_binding var existing prog
      = ⟨existing, linker_error prog (binding_mismatch_msg var), true⟩ := by
  unfold cv_check_binding
  rw [if_pos h1, if_pos (by rw [h2]; simp [h3])]

theorem cv_check_binding_clean (var existing : ir_variable) (prog : ProgState)
    (h : cv_bindings_match var existing) :
    ∃ e1, cv_check_binding var existing prog = ⟨e1, prog, false⟩ ∧
      e1.atomic_offset = existing.atomic_offset ∧
      e1.depth_layout = existing.depth_layout ∧
      e1.constant_initializer = existing.constant_initializer ∧
      e1.has_initializer = existing.has_initializer ∧
      e1.invariant = existing.invariant ∧
      e1.centroid = existing.centroid := by
  unfold cv_check_binding
  by_cases he : var.explicit_binding = true
  · have hcond : ¬((existing.explicit_binding
        && decide (var.binding ≠ existing.binding)) = true) := by
      intro hc
      rw [Bool.and_eq_true] at hc
      exact h ⟨he, hc.1, of_decide_eq_true hc.2⟩
    rw [if_pos he, if_neg hcond]
    exact ⟨{ existing with binding := var.binding, explicit_binding := true },
      rfl, rfl, rfl, rfl, rfl, rfl, rfl⟩
  · rw [if_neg he]
    exact ⟨existing, rfl, rfl, rfl, rfl, rfl, rfl, rfl⟩

theorem cv_check_atomic_fire (var existing : ir_variable) (prog : ProgState)
    (h1 : var.type.contains_atomic = true)
    (h2 : var.atomic_offset ≠ existing.atomic_offset) :
    cv_check_atomic var existing prog
      = ⟨existing, linker_error prog (atomic_mismatch_msg var), true⟩ := by
  unfold cv_check_atomic
  rw [if_pos (by rw [h1]; simp [h2])]

theorem cv_check_atomic_clean (var existing : ir_variable) (prog : ProgState)
    (h : cv_atomics_match var existing) :
    cv_check_atomic var existing prog = ⟨existing, prog, false⟩ := by
  unfold cv_check_atomic
  rw [if_neg ?hc]
  case hc =>
    intro hc
    rw [Bool.and_eq_true] at hc
    exact h ⟨hc.1, of_decide_eq_true hc.2⟩

theorem cv_check_frag_depth_fire_redeclared (var existing : ir_variable)
    (prog : ProgState) (hn : var.name = "gl_FragDepth")
    (hdecl : var.depth_layout ≠ ir_depth_layout.ir_depth_layout_none)
    (hdiff : var.depth_layout ≠ existing.depth_layout)
    (hused : var.used = false) :
    cv_check_frag_depth var existing prog
      = ⟨existing, linker_error prog frag_depth_redeclared_msg, false⟩ := by
  unfold cv_check_frag_depth
  rw [if_pos hn]
  simp [hdecl, hdiff, hused]

theorem cv_check_frag_depth_clean (var existing : ir_variable) (prog : ProgState)
    (h : cv_depth_layouts_match var existing) :
    cv_check_frag_depth var existing prog = ⟨existing, prog, false⟩ := by
  unfold cv_check_frag_depth
  by_cases hn : var.name = "gl_FragDepth"
  · rcases h with h | h
    · exact absurd hn h
    · rw [if_pos hn]
      simp [h]
  · rw [if_neg hn]

theorem cv_check_initializer_fire (var existing : ir_variable) (prog : ProgState)
    (a b : Int) (ha : var.constant_initializer = some a)
    (hb : existing.constant_initializer = some b) (hab : a ≠ b) :
    cv_check_initializer var existing prog
      = ⟨existing, linker_error prog (initializer_mismatch_msg var), true⟩ := by
  unfold cv_check_initializer
  rw [ha]
  dsimp only
  rw [hb]
  dsimp only
  rw [if_pos hab]

theorem cv_check_initializer_clean (var existing : ir_variable) (prog : ProgState)
    (h : cv_initializers_match var existing) :
    ∃ e1, cv_check_initializer var existing prog = ⟨e1, prog, false⟩ ∧
      (e1.constant_initializer = none → var.constant_initializer = none) ∧
      e1.has_initializer = existing.has_initializer ∧
      e1.invariant = existing.invariant ∧
      e1.centroid = existing.centroid := by
  unfold cv_check_initializer
  cases hv : var.constant_initializer with
  | none =>
    dsimp only
    exact ⟨existing, rfl, fun _ => rfl, rfl, rfl, rfl⟩
  | some a =>
    dsimp only
    cases he : existing.constant_initializer with
    | none =>
      dsimp only
      exact ⟨{ existing with constant_initializer := some a },
        rfl, fun hc => absurd hc (by simp), rfl, rfl, rfl⟩
    | some b =>
      dsimp only
      have hab : a = b := h a b hv he
      rw [if_neg (by simp [hab])]
      exact ⟨existing, rfl, fun hc => absurd (he.symm.trans hc) (by simp),
        rfl, rfl, rfl⟩

theorem cv_check_has_initializer_fire (var existing : ir_variable)
    (prog : ProgState) (h1 : var.has_initializer = true)
    (h2 : existing.has_initializer = true)
    (h3 : var.constant_initializer = none ∨ existing.constant_initializer = none) :
    cv_check_has_initializer var existing prog
      = ⟨existing, linker_error prog (mixed_initializer_msg var), true⟩ := by
  unfold cv_check_has_initializer
  rw [if_pos h1, if_pos (by
    rw [h2]
    simp only [Bool.true_and, Bool.or_eq_true, beq_iff_eq]
    exact h3)]

theorem cv_check_has_initializer_clean (var existing : ir_variable)
    (prog : ProgState)
    (h : ¬(var.has_initializer = true ∧ existing.has_initializer = true ∧
      (var.constant_initializer = none ∨ existing.constant_initializer = none))) :
    ∃ e1, cv_check_has_initializer var existing prog = ⟨e1, prog, false⟩ ∧
      e1.invariant = existing.invariant ∧
      e1.centroid = existing.centroid := by
  unfold cv_check_has_initializer
  by_cases hv : var.has_initializer = true
  · have hcond : ¬((existing.has_initializer
        && (var.constant_initializer == none
          || existing.constant_initializer == none)) = true) := by
      intro hc
      rw [Bool.and_eq_true, Bool.or_eq_true] at hc
      rcases hc.2 with hb | hb
      · exact h ⟨hv, hc.1, Or.inl (beq_iff_eq.mp hb)⟩
      · exact h ⟨hv, hc.1, Or.inr (beq_iff_eq.mp hb)⟩
    rw [if_pos hv, if_neg hcond]
    exact ⟨{ existing with has_initializer := true }, rfl, rfl, rfl⟩
  · rw [if_neg hv]
    exact ⟨existing, rfl, rfl, rfl⟩

theorem cv_check_invariant_fire (var existing : ir_variable) (prog : ProgState)
    (h : existing.invariant ≠ var.invariant) :
    cv_check_invariant var existing prog
      = ⟨existing, linker_error prog (invariant_mismatch_msg var), true⟩ := by
  unfold cv_check_invariant
  rw [if_pos h]

theorem cv_check_invariant_clean (var existing : ir_variable) (prog : ProgState)
    (h : existing.invariant = var.invariant) :
    cv_check_invariant var existing prog = ⟨existing, prog, false⟩ := by
  unfold cv_check_invariant
  rw [if_neg (by simp [h])]

theorem cv_check_centroid_fire (var existing : ir_variable) (prog : ProgState)
    (h : existing.centroid ≠ var.centroid) :
    cv_check_centroid var existing prog
      = ⟨existing, linker_error prog (centroid_mismatch_msg var), true⟩ := by
  unfold cv_check_centroid
  rw [if_pos h]

theorem cv_check_centroid_clean (var existing : ir_variable) (prog : ProgState)
    (h : existing.centroid = var.centroid) :
    cv_check_centroid var existing prog = ⟨existing, prog, false⟩ := by
  unfold cv_check_centroid
  rw [if_neg (by simp [h])]

/-- The chain-level contract of the per-declaration validation: the log
only grows, growth is error-path-only and clears the status, an early
return implies growth, and continuation implies only depth-layout
errors were appended. -/
theorem cv_existing_contract : CVCheckOK cross_validate_existing := by
  exact cvCheckOK_andThen cvCheckOK_type
    (cvCheckOK_andThen cvCheckOK_location
      (cvCheckOK_andThen cvCheckOK_binding
        (cvCheckOK_andThen cvCheckOK_atomic
          (cvCheckOK_andThen cvCheckOK_frag_depth
            (cvCheckOK_andThen cvCheckOK_initializer
              (cvCheckOK_andThen cvCheckOK_has_initializer
                (cvCheckOK_andThen cvCheckOK_invariant cvCheckOK_centroid)))))))

/-- Through the passing type, location and binding checks the
validation reaches the atomic-offset check with the first-seen record
unchanged in every field the remaining checks read. -/
theorem cross_validate_chain3 (var existing : ir_variable) (prog : ProgState)
    (hty : cv_types_match var existing) (hlo : cv_locations_match var existing)
    (hbi : cv_bindings_match var existing) :
    ∃ e3, cross_validate_existing var existing prog
        = cv_andThen (cv_check_atomic var e3 prog) (fun e p =>
          cv_andThen (cv_check_frag_depth var e p) (fun e p =>
          cv_andThen (cv_check_initializer var e p) (fun e p =>
          cv_andThen (cv_check_has_initializer var e p) (fun e p =>
          cv_andThen (cv_check_invariant var e p) (fun e p =>
          cv_check_centroid var e p))))) ∧
      e3.atomic_offset = existing.atomic_offset ∧
      e3.depth_layout = existing.depth_layout ∧
      e3.constant_initializer = existing.constant_initializer ∧
      e3.has_initializer = existing.has_initializer ∧
      e3.invariant = existing.invariant ∧
      e3.centroid = existing.centroid := by
  obtain ⟨e1, heq1, t1el, t1lo, t1eb, t1bi, t1ao, t1dl, t1ci, t1hi, t1in, t1ce⟩ :=
    cv_check_type_clean var existing prog hty
  have hlo1 : cv_locations_match var e1 := fun hc =>
    hlo ⟨hc.1, t1el.symm.trans hc.2.1, fun hx => hc.2.2 (hx.trans t1lo.symm)⟩
  obtain ⟨e2, heq2, u2eb, u2bi, u2ao, u2dl, u2ci, u2hi, u2in, u2ce⟩ :=
    cv_check_location_clean var e1 prog hlo1
  have hbi2 : cv_bindings_match var e2 := fun hc =>
    hbi ⟨hc.1, (u2eb.trans t1eb).symm.trans hc.2.1,
      fun hx => hc.2.2 (hx.trans (u2bi.trans t1bi).symm)⟩
  obtain ⟨e3, heq3, v3ao, v3dl, v3ci, v3hi, v3in, v3ce⟩ :=
    cv_check_binding_clean var e2 prog hbi2
  refine ⟨e3, ?_, v3ao.trans (u2ao.trans t1ao), v3dl.trans (u2dl.trans t1dl),
    v3ci.trans (u2ci.trans t1ci), v3hi.trans (u2hi.trans t1hi),
    v3in.trans (u2in.trans t1in), v3ce.trans (u2ce.trans t1ce)⟩
  unfold cross_validate_existing
  simp only [heq1, cv_andThen_mk_false, heq2, heq3]

/-- C1 (amended): a mismatch found while validating a declaration
against the first-seen one appends exactly the corresponding error to
the log via `linker_error` (which marks the entry as error-path and
clears `LinkStatus`) and returns immediately — for the type,
explicit-location, explicit-binding, atomic-offset, initializer-value,
mixed-initializer, invariant and centroid checks — while a
`gl_FragDepth` depth-layout mismatch appends its error and continues;
and every run obeys the log-growth/status contract `CVCheckOK`. -/
theorem c1_cross_validation_mismatch_behaviour :
    (∀ var existing prog,
      (¬cv_types_match var existing →
        cross_validate_existing var existing prog
          = ⟨existing, linker_error prog (type_mismatch_msg var existing), true⟩) ∧
      (cv_types_match var existing →
        var.explicit_location = true → existing.explicit_location = true →
        var.location ≠ existing.location →
        (cross_validate_existing var existing prog).prog
            = linker_error prog (location_mismatch_msg var) ∧
          (cross_validate_existing var existing prog).halt = true) ∧
      (cv_types_match var existing → cv_locations_match var existing →
        var.explicit_binding = true → existing.explicit_binding = true →
        var.binding ≠ existing.binding →
        (cross_validate_existing var existing prog).prog
            = linker_error prog (binding_mismatch_msg var) ∧
          (cross_validate_existing var existing prog).halt = true) ∧
      (cv_types_match var existing → cv_locations_match var existing →
        cv_bindings_match var existing →
        var.type.contains_atomic = true →
        var.atomic_offset ≠ existing.atomic_offset →
        (cross_validate_existing var existing prog).prog
            = linker_error prog (atomic_mismatch_msg var) ∧
          (cross_validate_existing var existing prog).halt = true) ∧
      (cv_types_match var existing → cv_locations_match var existing →
        cv_bindings_match var existing → cv_atomics_match var existing →
        var.name = "gl_FragDepth" →
        var.depth_layout ≠ ir_depth_layout.ir_depth_layout_none →
        var.depth_layout ≠ existing.depth_layout →
        var.used = false →
        cv_initializers_match var existing →
        cv_no_mixed_initializers var existing →
        existing.invariant = var.invariant →
        existing.centroid = var.centroid →
        (cross_validate_existing var existing prog).prog
            = linker_error prog frag_depth_redeclared_msg ∧
          (cross_validate_existing var existing prog).halt = false) ∧
      (cv_types_match var existing → cv_locations_match var existing →
        cv_bindings_match var existing → cv_atomics_match var existing →
        cv_depth_layouts_match var existing →
        ∀ a b, var.constant_initializer = some a →
          existing.constant_initializer = some b → a ≠ b →
          (cross_validate_existing var existing prog).prog
              = linker_error prog (initializer_mismatch_msg var) ∧
            (cross_validate_existing var existing prog).halt = true) ∧
      (cv_types_match var existing → cv_locations_match var existing →
        cv_bindings_match var existing → cv_atomics_match var existing →
        cv_depth_layouts_match var existing →
        var.has_initializer = true → existing.has_initializer = true →
        var.constant_initializer = none →
        (cross_validate_existing var existing prog).prog
            = linker_error prog (mixed_initializer_msg var) ∧
          (cross_validate_existing var existing prog).halt = true) ∧
      (cv_types_match var existing → cv_locations_match var existing →
        cv_bindings_match var existing → cv_atomics_match var existing →
        cv_depth_layouts_match var existing →
        cv_initializers_match var existing →
        cv_no_mixed_initializers var existing →
        existing.invariant ≠ var.invariant →
        (cross_validate_existing var existing prog).prog
            = linker_error prog (invariant_mismatch_msg var) ∧
          (cross_validate_existing var existing prog).halt = true) ∧
      (cv_types_match var existing → cv_locations_match var existing →
        cv_bindings_match var existing → cv_atomics_match var existing →
        cv_depth_layouts_match var existing →
        cv_initializers_match var existing →
        cv_no_mixed_initializers var existing →
        existing.invariant = var.invariant →
        existing.centroid ≠ var.centroid →
        (cross_validate_existing var existing prog).prog
            = linker_error prog (centroid_mismatch_msg var) ∧
          (cross_validate_existing var existing prog).halt = true)) ∧
    CVCheckOK cross_validate_existing := by
  refine ⟨fun var existing prog =>
    ⟨?_, ?_, ?_, ?_, ?_, ?_, ?_, ?_, ?_⟩, cv_existing_contract⟩
  · intro h
    have h1 : var.type ≠ existing.type := fun he => h (Or.inl he)
    have h2 : ¬(var.type.is_array = true ∧ existing.type.is_array = true ∧
        var.type.fields_array = existing.type.fields_array ∧
        (var.type.length = 0 ∨ existing.type.length = 0)) :=
      fun hb => h (Or.inr hb)
    unfold cross_validate_existing
    rw [cv_check_type_fire var existing prog h1 h2, cv_andThen_mk_true]
  · intro hty h1 h2 h3
    unfold cross_validate_existing
    obtain ⟨e1, heq1, t1el, t1lo, t1eb, t1bi, t1ao, t1dl, t1ci, t1hi, t1in, t1ce⟩ :=
      cv_check_type_clean var existing prog hty
    simp only [heq1, cv_andThen_mk_false]
    rw [cv_check_location_fire var e1 prog h1 (t1el.trans h2)
      (fun hx => h3 (hx.trans t1lo)), cv_andThen_mk_true]
    exact ⟨rfl, rfl⟩
  · intro hty hlo h1 h2 h3
    unfold cross_validate_existing
    obtain ⟨e1, heq1, t1el, t1lo, t1eb, t1bi, t1ao, t1dl, t1ci, t1hi, t1in, t1ce⟩ :=
      cv_check_type_clean var existing prog hty
    have hlo1 : cv_locations_match var e1 := fun hc =>
      hlo ⟨hc.1, t1el.symm.trans hc.2.1, fun hx => hc.2.2 (hx.trans t1lo.symm)⟩
    obtain ⟨e2, heq2, u2eb, u2bi, u2ao, u2dl, u2ci, u2hi, u2in, u2ce⟩ :=
      cv_check_location_clean var e1 prog hlo1
    simp only [heq1, cv_andThen_mk_false, heq2]
    rw [cv_check_binding_fire var e2 prog h1 ((u2eb.trans t1eb).trans h2)
      (fun hx => h3 (hx.trans (u2bi.trans t1bi))), cv_andThen_mk_true]
    exact ⟨rfl, rfl⟩
  · intro hty hlo hbi h1 h2
    obtain ⟨e3, heq, p_ao, p_dl, p_ci, p_hi, p_in, p_ce⟩ :=
      cross_validate_chain3 var existing prog hty hlo hbi
    rw [heq, cv_check_atomic_fire var e3 prog h1
      (fun hx => h2 (hx.trans p_ao)), cv_andThen_mk_true]
    exact ⟨rfl, rfl⟩
  · intro hty hlo hbi hat hn hdecl hdiff hused hini hmix hinv hcent
    obtain ⟨e3, heq, p_ao, p_dl, p_ci, p_hi, p_in, p_ce⟩ :=
      cross_validate_chain3 var existing prog hty hlo hbi
    have hat3 : cv_atomics_match var e3 := fun hc =>
      hat ⟨hc.1, fun hx => hc.2 (hx.trans p_ao.symm)⟩
    have heq4 := cv_check_atomic_clean var e3 prog hat3
    have hdiff3 : var.depth_layout ≠ e3.depth_layout :=
      fun hx => hdiff (hx.trans p_dl)
    have heq5 := cv_check_frag_depth_fire_redeclared var e3 prog hn hdecl hdiff3 hused
    have hini3 : cv_initializers_match var e3 := fun a b ha hb =>
      hini a b ha (p_ci.symm.trans hb)
    obtain ⟨e4, heq6, w4ci, w4hi, w4in, w4ce⟩ :=
      cv_check_initializer_clean var e3
        (linker_error prog frag_depth_redeclared_msg) hini3
    have chain_hi : e4.has_initializer = existing.has_initializer := w4hi.trans p_hi
    have hmix4 : ¬(var.has_initializer = true ∧ e4.has_initializer = true ∧
        (var.constant_initializer = none ∨ e4.constant_initializer = none)) := by
      intro hc
      rcases hc.2.2 with hx | hx
      · exact hmix ⟨hc.1, chain_hi.symm.trans hc.2.1, hx⟩
      · exact hmix ⟨hc.1, chain_hi.symm.trans hc.2.1, w4ci hx⟩
    obtain ⟨e5, heq7, x5in, x5ce⟩ :=
      cv_check_has_initializer_clean var e4
        (linker_error prog frag_depth_redeclared_msg) hmix4
    have chain_in : e5.invariant = var.invariant :=
      ((x5in.trans w4in).trans p_in).trans hinv
    have heq8 := cv_check_invariant_clean var e5
      (linker_error prog frag_depth_redeclared_msg) chain_in
    have chain_ce : e5.centroid = var.centroid :=
      ((x5ce.trans w4ce).trans p_ce).trans hcent
    have heq9 := cv_check_centroid_clean var e5
      (linker_error prog frag_depth_redeclared_msg) chain_ce
    rw [heq]
    simp only [heq4, cv_andThen_mk_false, heq5, heq6, heq7, heq8, heq9]
    exact ⟨trivial, trivial⟩
  · intro hty hlo hbi hat hfd a b ha hb hab
    obtain ⟨e3, heq, p_ao, p_dl, p_ci, p_hi, p_in, p_ce⟩ :=
      cross_validate_chain3 var existing prog hty hlo hbi
    have hat3 : cv_atomics_match var e3 := fun hc =>
      hat ⟨hc.1, fun hx => hc.2 (hx.trans p_ao.symm)⟩
    have heq4 := cv_check_atomic_clean var e3 prog hat3
    have hfd3 : cv_depth_layouts_match var e3 := by
      rcases hfd with h | h
      · exact Or.inl h
      · exact Or.inr (h.trans p_dl.symm)
    have heq5 := cv_check_frag_depth_clean var e3 prog hfd3
    have hb3 : e3.constant_initializer = some b := p_ci.trans hb
    rw [heq]
    simp only [heq4, cv_andThen_mk_false, heq5]
    rw [cv_check_initializer_fire var e3 prog a b ha hb3 hab, cv_andThen_mk_true]
    exact ⟨rfl, rfl⟩
  · intro hty hlo hbi hat hfd hv he hnone
    obtain ⟨e3, heq, p_ao, p_dl, p_ci, p_hi, p_in, p_ce⟩ :=
      cross_validate_chain3 var existing prog hty hlo hbi
    have hat3 : cv_atomics_match var e3 := fun hc =>
      hat ⟨hc.1, fun hx => hc.2 (hx.trans p_ao.symm)⟩
    have heq4 := cv_check_atomic_clean var e3 prog hat3
    have hfd3 : cv_depth_layouts_match var e3 := by
      rcases hfd with h | h
      · exact Or.inl h
      · exact Or.inr (h.trans p_dl.symm)
    have heq5 := cv_check_frag_depth_clean var e3 prog hfd3
    have hini3 : cv_initializers_match var e3 := fun a b ha hb =>
      absurd (hnone.symm.trans ha) (by simp)
    obtain ⟨e4, heq6, w4ci, w4hi, w4in, w4ce⟩ :=
      cv_check_initializer_clean var e3 prog hini3
    have chain_hi : e4.has_initializer = existing.has_initializer := w4hi.trans p_hi
    rw [heq]
    simp only [heq4, cv_andThen_mk_false, heq5, heq6]
    rw [cv_check_has_initializer_fire var e4 prog hv
      (chain_hi.trans he) (Or.inl hnone), cv_andThen_mk_true]
    exact ⟨rfl, rfl⟩
  · intro hty hlo hbi hat hfd hini hmix hinv
    obtain ⟨e3, heq, p_ao, p_dl, p_ci, p_hi, p_in, p_ce⟩ :=
      cross_validate_chain3 var existing prog hty hlo hbi
    have hat3 : cv_atomics_match var e3 := fun hc =>
      hat ⟨hc.1, fun hx => hc.2 (hx.trans p_ao.symm)⟩
    have heq4 := cv_check_atomic_clean var e3 prog hat3
    have hfd3 : cv_depth_layouts_match var e3 := by
      rcases hfd with h | h
      · exact Or.inl h
      · exact Or.inr (h.trans p_dl.symm)
    have heq5 := cv_check_frag_depth_clean var e3 prog hfd3
    have hini3 : cv_initializers_match var e3 := fun a b ha hb =>
      hini a b ha (p_ci.symm.trans hb)
    obtain ⟨e4, heq6, w4ci, w4hi, w4in, w4ce⟩ :=
      cv_check_initializer_clean var e3 prog hini3
    have chain_hi : e4.has_initializer = existing.has_initializer := w4hi.trans p_hi
    have hmix4 : ¬(var.has_initializer = true ∧ e4.has_initializer = true ∧
        (var.constant_initializer = none ∨ e4.constant_initializer = none)) := by
      intro hc
      rcases hc.2.2 with hx | hx
      · exact hmix ⟨hc.1, chain_hi.symm.trans hc.2.1, hx⟩
      · exact hmix ⟨hc.1, chain_hi.symm.trans hc.2.1, w4ci hx⟩
    obtain ⟨e5, heq7, x5in, x5ce⟩ :=
      cv_check_has_initializer_clean var e4 prog hmix4
    have chain_in : e5.invariant = existing.invariant := (x5in.trans w4in).trans p_in
    rw [heq]
    simp only [heq4, cv_andThen_mk_false, heq5, heq6, heq7]
    rw [cv_check_invariant_fire var e5 prog
      (fun hx => hinv (chain_in.symm.trans hx)), cv_andThen_mk_true]
    exact ⟨rfl, rfl⟩
  · intro hty hlo hbi hat hfd hini hmix hinv hcent
    obtain ⟨e3, heq, p_ao, p_dl, p_ci, p_hi, p_in, p_ce⟩ :=
      cross_validate_chain3 var existing prog hty hlo hbi
    have hat3 : cv_atomics_match var e3 := fun hc =>
      hat ⟨hc.1, fun hx => hc.2 (hx.trans p_ao.symm)⟩
    have heq4 := cv_check_atomic_clean var e3 prog hat3
    have hfd3 : cv_depth_layouts_match var e3 := by
      rcases hfd with h | h
      · exact Or.inl h
      · exact Or.inr (h.trans p_dl.symm)
    have heq5 := cv_check_frag_depth_clean var e3 prog hfd3
    have hini3 : cv_initializers_match var e3 := fun a b ha hb =>
      hini a b ha (p_ci.symm.trans hb)
    obtain ⟨e4, heq6, w4ci, w4hi, w4in, w4ce⟩ :=
      cv_check_initializer_clean var e3 prog hini3
    have chain_hi : e4.has_initializer = existing.has_initializer := w4hi.trans p_hi
    have hmix4 : ¬(var.has_initializer = true ∧ e4.has_initializer = true ∧
        (var.constant_initializer = none ∨ e4.constant_initializer = none)) := by
      intro hc
      rcases hc.2.2 with hx | hx
      · exact hmix ⟨hc.1, chain_hi.symm.trans hc.2.1, hx⟩
      · exact hmix ⟨hc.1, chain_hi.symm.trans hc.2.1, w4ci hx⟩
    obtain ⟨e5, heq7, x5in, x5ce⟩ :=
      cv_check_has_initializer_clean var e4 prog hmix4
    have chain_in : e5.invariant = var.invariant :=
      ((x5in.trans w4in).trans p_in).trans hinv
    have heq8 := cv_check_invariant_clean var e5 prog chain_in
    have chain_ce : e5.centroid = existing.centroid := (x5ce.trans w4ce).trans p_ce
    rw [heq]
    simp only [heq4, cv_andThen_mk_false, heq5, heq6, heq7, heq8]
    rw [cv_check_centroid_fire var e5 prog
      (fun hx => hcent (chain_ce.symm.trans hx))]
    exact ⟨rfl, rfl⟩

/-- Witness for C1's amended theorem at a concrete invariant-qualifier
mismatch: two otherwise identical declarations of `a`, the first-seen
one marked `invariant` — validation appends exactly the invariant
error and halts. -/
theorem c1_witness :
    (cross_validate_existing (mkGlobalVar "a")
        { mkGlobalVar "a" with invariant := true } link_reset).prog
      = linker_error link_reset (invariant_mismatch_msg (mkGlobalVar "a")) ∧
    (cross_validate_existing (mkGlobalVar "a")
        { mkGlobalVar "a" with invariant := true } link_reset).halt = true := by
  exact (c1_cross_validation_mismatch_behaviour.1 (mkGlobalVar "a")
      { mkGlobalVar "a" with invariant := true } link_reset).2.2.2.2.2.2.2.1
    (Or.inl rfl)
    (fun hc => absurd hc.1 (by decide))
    (fun hc => absurd hc.1 (by decide))
    (fun hc => absurd hc.1 (by decide))
    (Or.inl (by decide))
    (fun a b ha hb => absurd ha (by simp [mkGlobalVar]))
    (fun hc => absurd hc.1 (by decide))
    (by decide)

/-- C1 counterexample to the claim as stated: with an explicit-location
mismatch on `a` followed by a centroid mismatch on `b`, validation logs
only the first error and returns — the `b` pair is never examined (no
`b` entry even reaches the scratch table), where the claim's
continue-on-non-type-mismatch behaviour would log both. -/
theorem c1_counterexample :
    (cross_validate_globals link_reset [some c1_cx_shader] false).prog.InfoLog.length = 1 ∧
    (cross_validate_globals link_reset [some c1_cx_shader] false).halt = true ∧
    get_variable (cross_validate_globals link_reset [some c1_cx_shader] false).syms "b"
      = none := by
  refine ⟨?_, ?_, ?_⟩ <;> decide

/-! ## C3: implicit/explicit array size unification

Evaluation lemmas for each check when the two declarations share every
field except the (array) type. -/

theorem cv_loc_same (v : ir_variable) (T1 T2 : glsl_type) (p : ProgState) :
    cv_check_location { v with type := T1 } { v with type := T2 } p
      = ⟨{ v with type := T2 }, p, false⟩ := by
  by_cases h : v.explicit_location <;> simp [cv_check_location, h]

theorem cv_bind_same (v : ir_variable) (T1 T2 : glsl_type) (p : ProgState) :
    cv_check_binding { v with type := T1 } { v with type := T2 } p
      = ⟨{ v with type := T2 }, p, false⟩ := by
  by_cases h : v.explicit_binding <;> simp [cv_check_binding, h]

theorem cv_atomic_same (v : ir_variable) (T1 T2 : glsl_type) (p : ProgState) :
    cv_check_atomic { v with type := T1 } { v with type := T2 } p
      = ⟨{ v with type := T2 }, p, false⟩ := by
  simp [cv_check_atomic]

theorem cv_fd_same (v : ir_variable) (T1 T2 : glsl_type) (p : ProgState) :
    cv_check_frag_depth { v with type := T1 } { v with type := T2 } p
      = ⟨{ v with type := T2 }, p, false⟩ := by
  by_cases h : v.name = "gl_FragDepth" <;> simp [cv_check_frag_depth, h]

theorem cv_ci_same (v : ir_variable) (T1 T2 : glsl_type) (p : ProgState) :
    cv_check_initializer { v with type := T1 } { v with type := T2 } p
      = ⟨{ v with type := T2 }, p, false⟩ := by
  cases hci : v.constant_initializer <;> simp [cv_check_initializer, hci]

theorem cv_hi_same (v : ir_variable) (T1 T2 : glsl_type) (p : ProgState)
    (hinit : v.has_initializer = true → v.constant_initializer ≠ none) :
    cv_check_has_initializer { v with type := T1 } { v with type := T2 } p
      = ⟨{ v with type := T2 }, p, false⟩ := by
  by_cases h : v.has_initializer
  · cases hc : v.constant_initializer with
    | none => exact absurd hc (hinit h)
    | some c => simp [cv_check_has_initializer, h, hc]
  · simp [cv_check_has_initializer, h]

theorem cv_inv_same (v : ir_variable) (T1 T2 : glsl_type) (p : ProgState) :
    cv_check_invariant { v with type := T1 } { v with type := T2 } p
      = ⟨{ v with type := T2 }, p, false⟩ := by
  simp [cv_check_invariant]

theorem cv_cent_same (v : ir_variable) (T1 T2 : glsl_type) (p : ProgState) :
    cv_check_centroid { v with type := T1 } { v with type := T2 } p
      = ⟨{ v with type := T2 }, p, false⟩ := by
  simp [cv_check_centroid]

/-- Type check when the new declaration is the explicitly sized array:
the stored declaration adopts the explicit size. -/
theorem cv_type_unify_sized_new (v : ir_variable) (elem : glsl_type)
    (n : Nat) (p : ProgState) (hn : n ≠ 0) :
    cv_check_type { v with type := .array elem n } { v with type := .array elem 0 } p
      = ⟨{ v with type := .array elem n }, p, false⟩ := by
  simp [cv_check_type, glsl_type.is_array, glsl_type.fields_array,
    glsl_type.length, hn]

/-- Type check when the new declaration is the unsized array: the
stored declaration keeps its explicit size. -/
theorem cv_type_unify_sized_existing (v : ir_variable) (elem : glsl_type)
    (n : Nat) (p : ProgState) (_hn : n ≠ 0) :
    cv_check_type { v with type := .array elem 0 } { v with type := .array elem n } p
      = ⟨{ v with type := .array elem n }, p, false⟩ := by
  simp [cv_check_type, glsl_type.is_array, glsl_type.fields_array,
    glsl_type.length]

theorem cross_validate_existing_unify_new (v : ir_variable) (elem : glsl_type)
    (n : Nat) (p : ProgState) (hn : n ≠ 0)
    (hinit : v.has_initializer = true → v.constant_initializer ≠ none) :
    cross_validate_existing { v with type := .array elem n }
      { v with type := .array elem 0 } p
      = ⟨{ v with type := .array elem n }, p, false⟩ := by
  unfold cross_validate_existing
  rw [cv_type_unify_sized_new v elem n p hn]
  simp only [cv_andThen_mk_false, cv_loc_same, cv_bind_same, cv_atomic_same,
    cv_fd_same, cv_ci_same, cv_hi_same v _ _ _ hinit, cv_inv_same, cv_cent_same]

theorem cross_validate_existing_unify_existing (v : ir_variable) (elem : glsl_type)
    (n : Nat) (p : ProgState) (hn : n ≠ 0)
    (hinit : v.has_initializer = true → v.constant_initializer ≠ none) :
    cross_validate_existing { v with type := .array elem 0 }
      { v with type := .array elem n } p
      = ⟨{ v with type := .array elem n }, p, false⟩ := by
  unfold cross_validate_existing
  rw [cv_type_unify_sized_existing v elem n p hn]
  simp only [cv_andThen_mk_false, cv_loc_same, cv_bind_same, cv_atomic_same,
    cv_fd_same, cv_ci_same, cv_hi_same v _ _ _ hinit, cv_inv_same, cv_cent_same]

/-- C3: for a same-named pair whose declarations agree on everything but
array sizing — one an unsized array, the other an explicitly sized
array of the same element type, in either order — cross-validation
records no error, does not return early, and the declaration retained
in the scratch symbol table carries the explicitly sized type. -/
theorem c3_unsized_array_unification (v : ir_variable) (elem : glsl_type)
    (n : Nat) (prog : ProgState)
    (hn : n ≠ 0)
    (hmode : v.mode ≠ ir_variable_mode.ir_var_temporary)
    (hinit : v.has_initializer = true → v.constant_initializer ≠ none) :
    ((cross_validate_globals prog
        [some [.var_decl { v with type := .array elem 0 },
               .var_decl { v with type := .array elem n }]] false).prog = prog ∧
     (cross_validate_globals prog
        [some [.var_decl { v with type := .array elem 0 },
               .var_decl { v with type := .array elem n }]] false).halt = false ∧
     get_variable (cross_validate_globals prog
        [some [.var_decl { v with type := .array elem 0 },
               .var_decl { v with type := .array elem n }]] false).syms v.name
       = some { v with type := .array elem n }) ∧
    ((cross_validate_globals prog
        [some [.var_decl { v with type := .array elem n },
               .var_decl { v with type := .array elem 0 }]] false).prog = prog ∧
     (cross_validate_globals prog
        [some [.var_decl { v with type := .array elem n },
               .var_decl { v with type := .array elem 0 }]] false).halt = false ∧
     get_variable (cross_validate_globals prog
        [some [.var_decl { v with type := .array elem n },
               .var_decl { v with type := .array elem 0 }]] false).syms v.name
       = some { v with type := .array elem n }) := by
  have hstep : ∀ (T : glsl_type),
      cross_validate_node false ⟨[], prog, false⟩ (.var_decl { v with type := T })
        = ⟨[{ v with type := T }], prog, false⟩ := by
    intro T
    simp [cross_validate_node, hmode, get_variable, add_variable]
  constructor
  · have h2 : cross_validate_node false ⟨[{ v with type := .array elem 0 }], prog, false⟩
        (.var_decl { v with type := .array elem n })
        = ⟨[{ v with type := .array elem n }], prog, false⟩ := by
      simp [cross_validate_node, hmode, get_variable,
        cross_validate_existing_unify_new v elem n prog hn hinit, update_variable]
    simp [cross_validate_globals, cross_validate_shader, hstep, h2, get_variable]
  · have h2 : cross_validate_node false ⟨[{ v with type := .array elem n }], prog, false⟩
        (.var_decl { v with type := .array elem 0 })
        = ⟨[{ v with type := .array elem n }], prog, false⟩ := by
      simp [cross_validate_node, hmode, get_variable,
        cross_validate_existing_unify_existing v elem n prog hn hinit, update_variable]
    simp [cross_validate_globals, cross_validate_shader, hstep, h2, get_variable]

/-- Witness for C3 at a concrete pair `float arr[]` / `float arr[4]`. -/
theorem c3_witness :
    get_variable (cross_validate_globals link_reset
      [some [.var_decl { mkGlobalVar "arr" with type := .array (.base "float" false) 0 },
             .var_decl { mkGlobalVar "arr" with type := .array (.base "float" false) 4 }]]
      false).syms "arr"
      = some { mkGlobalVar "arr" with type := .array (.base "float" false) 4 } := by
  have h := c3_unsized_array_unification (mkGlobalVar "arr") (.base "float" false) 4
    link_reset (by decide) (by decide) (by decide)
  exact h.1.2.2

/-! ## C4: initializer cross-validation (a code bug)

When the first-seen declaration has a non-constant initializer
(`has_initializer` set, no constant value) and a later declaration has
a constant one, linker.cpp 710-735 adopts the constant initializer into
the stored declaration before the mixed-initializer check at 737-746
runs, so that check's `existing->constant_initializer == NULL` arm can
no longer fire: no error is recorded, although the GLSL rule quoted at
linker.cpp 695-708 (and the claim) requires one.  In the opposite order
the error is recorded. -/

/-- C4 failing input evaluated: non-constant initializer first, constant
second — no error, link status still true, constant value silently
adopted; same pair reversed — error recorded.  The claim's "a link
error is recorded" fails on the first order. -/
theorem c4_nonconstant_initializer_order_bug :
    (cross_validate_globals link_reset [some c4_shader] false).prog = link_reset ∧
    (cross_validate_globals link_reset [some c4_shader] false).halt = false ∧
    get_variable (cross_validate_globals link_reset [some c4_shader] false).syms "x"
      = some { mkGlobalVar "x" with
               has_initializer := true, constant_initializer := some 1 } ∧
    (cross_validate_globals link_reset [some c4_shader_rev] false).prog.LinkStatus
      = false := by
  refine ⟨?_, ?_, ?_, ?_⟩ <;> decide

/-! ## C7: mandatory `gl_Position` write below the version threshold -/

/-- `analyze_clip_usage` can append only its own clip error, never the
missing-position entry, and it never raises `LinkStatus`. -/
theorem analyze_clip_usage_missing_iff (prog : ProgState) (IsES : Bool)
    (Version : Nat) (sh : VertexShaderModel) (info : ClipInfo) :
    (missing_position_entry ∈
        (analyze_clip_usage "vertex" prog IsES Version sh info).1.InfoLog ↔
      missing_position_entry ∈ prog.InfoLog) ∧
    ((analyze_clip_usage "vertex" prog IsES Version sh info).1.LinkStatus = true →
      prog.LinkStatus = true) := by
  have hne : missing_position_entry
      ≠ (⟨true, "error: " ++ clip_both_msg "vertex"⟩ : LogEntry) := by decide
  unfold analyze_clip_usage
  dsimp only
  split
  · split
    · constructor
      · simp [linker_error, hne]
      · simp [linker_error]
    · split
      · constructor
        · simp
        · exact fun h => h
      · constructor
        · simp
        · exact fun h => h
  · constructor
    · simp
    · exact fun h => h

/-- C7: for a vertex-stage executable below the optional-position
threshold (ES 300 / desktop 140), the missing-position-write error is
appended exactly when no static `gl_Position` write is found (and then
link status is cleared); at or above the threshold the error is never
appended.  Write detection recognises direct assignments, `out`/`inout`
call arguments, and call return-value dereferences. -/
theorem c7_vertex_position_write (prog : ProgState) (IsES : Bool) (Version : Nat)
    (sh : VertexShaderModel) (vert : ClipInfo)
    (hmem : missing_position_entry ∉ prog.InfoLog) :
    (Version < (if IsES then 300 else 140) →
      ((missing_position_entry ∈
          (validate_vertex_shader_executable prog IsES Version (some sh) vert).1.InfoLog)
        ↔ find_assignment_list "gl_Position" sh.ir = false) ∧
      (find_assignment_list "gl_Position" sh.ir = false →
        (validate_vertex_shader_executable prog IsES Version (some sh) vert).1.LinkStatus
          = false)) ∧
    ((if IsES then 300 else 140) ≤ Version →
      missing_position_entry ∉
        (validate_vertex_shader_executable prog IsES Version (some sh) vert).1.InfoLog) ∧
    (∀ rest, find_assignment_list "gl_Position"
      (.ir_assignment "gl_Position" :: rest) = true) ∧
    (∀ ps ret rest m,
      (m = ir_variable_mode.ir_var_function_out ∨
        m = ir_variable_mode.ir_var_function_inout) →
      (m, some "gl_Position") ∈ ps →
      find_assignment_list "gl_Position" (.ir_call ps ret :: rest) = true) ∧
    (∀ ps rest, find_assignment_list "gl_Position"
      (.ir_call ps (some "gl_Position") :: rest) = true) := by
  refine ⟨?_, ?_, ?_, ?_, ?_⟩
  · intro hver
    unfold validate_vertex_shader_executable
    dsimp only
    rw [if_pos hver]
    cases hfind : find_assignment_list "gl_Position" sh.ir with
    | false =>
      constructor
      · simp only [Bool.not_false, if_pos]
        constructor
        · intro _; trivial
        · intro _
          simp [linker_error, missing_position_entry]
      · intro _
        simp [linker_error]
    | true =>
      simp only [Bool.not_true, Bool.false_eq_true, if_false]
      constructor
      · rw [(analyze_clip_usage_missing_iff prog IsES Version sh vert).1]
        constructor
        · intro h; exact absurd h hmem
        · intro h; cases h
      · intro h; cases h
  · intro hver
    unfold validate_vertex_shader_executable
    dsimp only
    rw [if_neg (Nat.not_lt.mpr hver)]
    rw [(analyze_clip_usage_missing_iff prog IsES Version sh vert).1]
    exact hmem
  · intro rest
    simp [find_assignment_list, find_assignment_node]
  · intro ps ret rest m hm hmemp
    simp only [find_assignment_list, find_assignment_node, Bool.or_eq_true]
    refine Or.inl (Or.inl ?_)
    rw [List.any_eq_true]
    refine ⟨(m, some "gl_Position"), hmemp, ?_⟩
    rcases hm with rfl | rfl <;> decide
  · intro ps rest
    simp [find_assignment_list, find_assignment_node]

/-- Witness for C7: a desktop version-110 vertex shader whose only
instruction assigns to a temporary — the missing-position error is
appended; and the coverage facts at concrete inputs. -/
theorem c7_witness :
    (missing_position_entry ∈
      (validate_vertex_shader_executable link_reset false 110
        (some ⟨[.ir_assignment "tmp"], none⟩) ⟨false, 0⟩).1.InfoLog) ∧
    find_assignment_list "gl_Position"
      [.ir_call [(ir_variable_mode.ir_var_function_out, some "gl_Position")] none]
      = true := by
  have h := c7_vertex_position_write link_reset false 110
    ⟨[.ir_assignment "tmp"], none⟩ ⟨false, 0⟩ (by decide)
  constructor
  · exact ((h.1 (by decide)).1).mpr (by decide)
  · exact h.2.2.2.1 [(ir_variable_mode.ir_var_function_out, some "gl_Position")]
      none [] ir_variable_mode.ir_var_function_out (Or.inl rfl) (by decide)

/-! ## C8: multiply defined function signatures -/

theorem md_scan_sigs_name (f other : ir_function) (ss : List ir_function_signature)
    (n : String) (h : md_scan_sigs f other ss = some n) : n = f.name := by
  induction ss with
  | nil => simp [md_scan_sigs] at h
  | cons s rest ih =>
    unfold md_scan_sigs at h
    split at h
    · exact ih h
    · split at h
      · split at h
        · injection h with h2
          exact h2.symm
        · exact ih h
      · exact ih h

theorem md_scan_sigs_complete (f other : ir_function)
    (ss : List ir_function_signature) (sig : ir_function_signature)
    (hmem : sig ∈ ss) (hdef : sig.is_defined = true) (hnb : sig.is_builtin = false)
    (osig : ir_function_signature)
    (hex : exact_matching_signature other sig.params = some osig)
    (hodef : osig.is_defined = true) (honb : osig.is_builtin = false) :
    ∃ n, md_scan_sigs f other ss = some n := by
  induction ss with
  | nil => cases hmem
  | cons s rest ih =>
    unfold md_scan_sigs
    rcases List.mem_cons.mp hmem with rfl | hmem2
    · rw [if_neg (by simp [hdef, hnb]), hex]
      dsimp only
      rw [if_pos (by simp [hodef, honb] : (osig.is_defined && !osig.is_builtin) = true)]
      exact ⟨f.name, rfl⟩
    · split
      · exact ih hmem2
      · split
        · split
          · exact ⟨f.name, rfl⟩
          · exact ih hmem2
        · exact ih hmem2

theorem md_scan_sigs_sound (f other : ir_function)
    (ss : List ir_function_signature) (n : String)
    (h : md_scan_sigs f other ss = some n) :
    ∃ sig ∈ ss, sig.is_defined = true ∧ sig.is_builtin = false ∧
      ∃ osig, exact_matching_signature other sig.params = some osig ∧
        osig.is_defined = true ∧ osig.is_builtin = false := by
  induction ss with
  | nil => simp [md_scan_sigs] at h
  | cons s rest ih =>
    unfold md_scan_sigs at h
    split at h
    · obtain ⟨sig, hm, hrest⟩ := ih h
      exact ⟨sig, List.mem_cons_of_mem _ hm, hrest⟩
    · rename_i hskip
      split at h
      · rename_i osig hex
        split at h
        · rename_i hcond
          simp only [Bool.or_eq_true, Bool.not_eq_true', not_or,
            Bool.not_eq_false] at hskip
          simp only [Bool.and_eq_true, Bool.not_eq_true'] at hcond
          exact ⟨s, List.mem_cons_self _ _, hskip.1,
            Bool.not_eq_true _ ▸ hskip.2, osig, hex, hcond.1, hcond.2⟩
        · obtain ⟨sig, hm, hrest⟩ := ih h
          exact ⟨sig, List.mem_cons_of_mem _ hm, hrest⟩
      · obtain ⟨sig, hm, hrest⟩ := ih h
        exact ⟨sig, List.mem_cons_of_mem _ hm, hrest⟩

theorem md_scan_shaders_complete (f : ir_function) (rest : List gl_shader)
    (sh2 : gl_shader) (hmem : sh2 ∈ rest)
    (f2 : ir_function) (hget : get_function sh2 f.name = some f2)
    (hsigs : ∃ n, md_scan_sigs f f2 f.signatures = some n) :
    ∃ n, md_scan_shaders f rest = some n := by
  induction rest with
  | nil => cases hmem
  | cons s rest2 ih =>
    unfold md_scan_shaders
    rcases List.mem_cons.mp hmem with rfl | hmem2
    · rw [hget]
      dsimp only
      obtain ⟨n, hn⟩ := hsigs
      rw [hn]
      exact ⟨n, rfl⟩
    · cases hgs : get_function s f.name with
      | none => exact ih hmem2
      | some g =>
        dsimp only
        cases hms : md_scan_sigs f g f.signatures with
        | none => exact ih hmem2
        | some n => exact ⟨n, rfl⟩

theorem md_scan_shaders_sound (f : ir_function) (rest : List gl_shader)
    (n : String) (h : md_scan_shaders f rest = some n) :
    ∃ mid sh2 post, rest = mid ++ sh2 :: post ∧
      ∃ f2, get_function sh2 f.name = some f2 ∧
        md_scan_sigs f f2 f.signatures = some n := by
  induction rest with
  | nil => simp [md_scan_shaders] at h
  | cons s rest2 ih =>
    unfold md_scan_shaders at h
    split at h
    · obtain ⟨mid, sh2, post, heq, hrest⟩ := ih h
      exact ⟨s :: mid, sh2, post, by rw [heq]; rfl, hrest⟩
    · rename_i f2 hget
      split at h
      · rename_i n2 hms
        cases h
        exact ⟨[], s, rest2, rfl, f2, hget, hms⟩
      · obtain ⟨mid, sh2, post, heq, hrest⟩ := ih h
        exact ⟨s :: mid, sh2, post, by rw [heq]; rfl, hrest⟩

theorem md_scan_nodes_complete (rest : List gl_shader)
    (nodes : List ir_instruction) (f : ir_function)
    (hmem : ir_instruction.function_decl f ∈ nodes)
    (hsh : ∃ n, md_scan_shaders f rest = some n) :
    ∃ n, md_scan_nodes rest nodes = some n := by
  induction nodes with
  | nil => cases hmem
  | cons node nodes2 ih =>
    unfold md_scan_nodes
    rcases List.mem_cons.mp hmem with heq | hmem2
    · cases heq
      dsimp only
      obtain ⟨n, hn⟩ := hsh
      rw [hn]
      exact ⟨n, rfl⟩
    · cases node with
      | function_decl g =>
        dsimp only
        cases hg : md_scan_shaders g rest with
        | some n => exact ⟨n, rfl⟩
        | none => exact ih hmem2
      | var_decl v => exact ih hmem2
      | other => exact ih hmem2

theorem md_scan_nodes_sound (rest : List gl_shader)
    (nodes : List ir_instruction) (n : String)
    (h : md_scan_nodes rest nodes = some n) :
    ∃ f, ir_instruction.function_decl f ∈ nodes ∧
      md_scan_shaders f rest = some n := by
  induction nodes with
  | nil => simp [md_scan_nodes] at h
  | cons node nodes2 ih =>
    unfold md_scan_nodes at h
    cases node with
    | function_decl g =>
      dsimp only at h
      cases hg : md_scan_shaders g rest with
      | some n2 =>
        rw [hg] at h
        dsimp only at h
        cases h
        exact ⟨g, List.mem_cons_self _ _, hg⟩
      | none =>
        rw [hg] at h
        dsimp only at h
        obtain ⟨f, hm, hf⟩ := ih h
        exact ⟨f, List.mem_cons_of_mem _ hm, hf⟩
    | var_decl v =>
      dsimp only at h
      obtain ⟨f, hm, hf⟩ := ih h
      exact ⟨f, List.mem_cons_of_mem _ hm, hf⟩
    | other =>
      dsimp only at h
      obtain ⟨f, hm, hf⟩ := ih h
      exact ⟨f, List.mem_cons_of_mem _ hm, hf⟩

theorem find_md_complete (l : List gl_shader) (h : HasMultiplyDefined l) :
    ∃ n, find_multiply_defined l = some n := by
  obtain ⟨pre, sh1, mid, sh2, post, fname, ps, heq, hir, hsym⟩ := h
  subst heq
  induction pre with
  | nil =>
    simp only [List.nil_append]
    obtain ⟨f, hfmem, hfname, sig, hsigmem, hsp, hsd, hsb⟩ := hir
    obtain ⟨f2, hget, sig2, hex, h2d, h2b⟩ := hsym
    have hsigs : ∃ nn, md_scan_sigs f f2 f.signatures = some nn :=
      md_scan_sigs_complete f f2 f.signatures sig hsigmem hsd hsb sig2
        (by rw [hsp]; exact hex) h2d h2b
    have hget2 : get_function sh2 f.name = some f2 := by
      rw [hfname]; exact hget
    have hsh : ∃ nn, md_scan_shaders f (mid ++ sh2 :: post) = some nn :=
      md_scan_shaders_complete f _ sh2 (by simp) f2 hget2 hsigs
    obtain ⟨nn, hnn⟩ := md_scan_nodes_complete _ _ f hfmem hsh
    refine ⟨nn, ?_⟩
    simp only [find_multiply_defined, List.append_eq]
    rw [hnn]
  | cons p pre2 ih =>
    simp only [List.cons_append]
    cases hp : md_scan_nodes (pre2 ++ sh1 :: mid ++ sh2 :: post) p.ir with
    | some n =>
      refine ⟨n, ?_⟩
      simp only [find_multiply_defined, List.append_eq]
      rw [hp]
    | none =>
      obtain ⟨n, hn⟩ := ih
      refine ⟨n, ?_⟩
      simp only [find_multiply_defined, List.append_eq]
      rw [hp]
      dsimp only
      exact hn

theorem find_md_sound (l : List gl_shader) (n : String)
    (h : find_multiply_defined l = some n) : MultiplyDefinedName l n := by
  induction l with
  | nil => simp [find_multiply_defined] at h
  | cons sh rest ih =>
    unfold find_multiply_defined at h
    cases hnodes : md_scan_nodes rest sh.ir with
    | none =>
      rw [hnodes] at h
      dsimp only at h
      obtain ⟨pre, sh1, mid, sh2, post, ps, heq, h1, h2⟩ := ih h
      exact ⟨sh :: pre, sh1, mid, sh2, post, ps, by rw [heq]; rfl, h1, h2⟩
    | some n2 =>
      rw [hnodes] at h
      dsimp only at h
      rw [Option.some.injEq] at h
      rw [← h]
      obtain ⟨f, hfmem, hsh⟩ := md_scan_nodes_sound rest sh.ir n2 hnodes
      obtain ⟨mid, sh2, post, heq, f2, hget, hms⟩ :=
        md_scan_shaders_sound f rest n2 hsh
      have hname : n2 = f.name := md_scan_sigs_name f f2 f.signatures n2 hms
      obtain ⟨sig, hsigmem, hsd, hsb, osig, hex, hod, hob⟩ :=
        md_scan_sigs_sound f f2 _ n2 hms
      refine ⟨[], sh, mid, sh2, post, sig.params, by rw [heq]; rfl, ?_, ?_⟩
      · exact ⟨f, hfmem, hname.symm, sig, hsigmem, rfl, hsd, hsb⟩
      · refine ⟨f2, ?_, osig, hex, hod, hob⟩
        rw [hname]
        exact hget

/-- C8: whenever two distinct translation units of the stage both
define (not merely declare) a non-built-in signature with identical
name and parameter list, the multiply-defined check of intrastage
merging records a link error naming a multiply defined function, clears
the link status, and returns no executable. -/
theorem c8_multiply_defined (prog : ProgState) (l : List gl_shader)
    (h : HasMultiplyDefined l) :
    (link_intrastage_md_check prog l).2 = false ∧
    (link_intrastage_md_check prog l).1.LinkStatus = false ∧
    ∃ n, MultiplyDefinedName l n ∧
      (link_intrastage_md_check prog l).1.InfoLog
        = prog.InfoLog
          ++ [⟨true, "error: " ++ ("function `" ++ n ++ "` is multiply defined")⟩] := by
  obtain ⟨n, hn⟩ := find_md_complete l h
  have hname := find_md_sound l n hn
  unfold link_intrastage_md_check
  rw [hn]
  exact ⟨rfl, rfl, n, hname, rfl⟩

/-- Witness for C8: two units each defining `void foo()`. -/
theorem c8_witness :
    (link_intrastage_md_check link_reset [c8_unit, c8_unit]).2 = false ∧
    (link_intrastage_md_check link_reset [c8_unit, c8_unit]).1.LinkStatus = false := by
  have h : HasMultiplyDefined [c8_unit, c8_unit] :=
    ⟨[], c8_unit, [], c8_unit, [], "foo", [], rfl,
     ⟨c8_foo, by decide, rfl, c8_foo_sig, by decide, rfl, rfl, rfl⟩,
     ⟨c8_foo, by decide, c8_foo_sig, by decide, rfl, rfl⟩⟩
  have hc := c8_multiply_defined link_reset [c8_unit, c8_unit] h
  exact ⟨hc.1, hc.2.1⟩

/-! ## C9: determinism of location allocation -/

/-- C9: location allocation is a function of the inputs listed by the
claim (variables in declaration order with their types and explicit
locations, application binding tables, slot budget, slot-count
assignment, `gl_Vertex` usage, program state): two runs over equal
inputs produce the same outcome, and in particular every variable
receives the identical location.  The model fixes the one point the C
code leaves to the qsort implementation — the relative order of
equal-span entries — as the source's comparator only orders by span;
for any fixed deterministic sort the allocation is deterministic. -/
theorem c9_allocation_deterministic (a b : AllocInputs) (h : a = b) :
    assign_attribute_or_color_locations a
      = assign_attribute_or_color_locations b ∧
    ∀ pos, (assign_attribute_or_color_locations a).ir.get? pos
      = (assign_attribute_or_color_locations b).ir.get? pos := by
  subst h
  exact ⟨rfl, fun _ => rfl⟩

/-- Witness for C9 at a concrete input set. -/
theorem c9_witness :
    assign_attribute_or_color_locations c9_inputs
      = assign_attribute_or_color_locations c9_inputs :=
  (c9_allocation_deterministic c9_inputs c9_inputs rfl).1

/-! ## C10: the 16-element `to_assign` array -/

theorem alloc_pass1_step_halted_stays (target : shader_target) (mi gb : Nat)
    (ab fdb fdib : Bindings) (cas : glsl_type → Nat)
    (st : AllocState) (pos : Nat) (node : ir_instruction)
    (h : st.halted = true) :
    alloc_pass1_step target mi gb ab fdb fdib cas st pos node = st := by
  unfold alloc_pass1_step
  rw [h]
  simp

theorem alloc_pass1_halted_mono (target : shader_target) (mi gb : Nat)
    (ab fdb fdib : Bindings) (cas : glsl_type → Nat)
    (nodes : List ir_instruction) (st : AllocState) (pos : Nat)
    (h : st.halted = true) :
    (alloc_pass1 target mi gb ab fdb fdib cas st pos nodes).halted = true := by
  induction nodes generalizing st pos with
  | nil => exact h
  | cons node rest ih =>
    unfold alloc_pass1
    rw [alloc_pass1_step_halted_stays target mi gb ab fdb fdib cas st pos node h]
    exact ih st (pos + 1) h

/-- Binding application leaves an explicitly located variable alone. -/
theorem alloc_apply_bindings_explicit (target : shader_target)
    (ab fdb fdib : Bindings) (v : ir_variable)
    (h : v.explicit_location = true) :
    alloc_apply_bindings target ab fdb fdib v = v := by
  simp [alloc_apply_bindings, h]

theorem alloc_apply_bindings_vertex_some (ab fdb fdib : Bindings)
    (v : ir_variable) (b : Nat) (h : v.explicit_location = false)
    (hb : bindings_get ab v.name = some b) :
    alloc_apply_bindings .vertex ab fdb fdib v
      = { v with location := (b : Int), is_unmatched_generic_inout := false } := by
  simp [alloc_apply_bindings, h, hb]

theorem alloc_apply_bindings_vertex_none (ab fdb fdib : Bindings)
    (v : ir_variable) (h : v.explicit_location = false)
    (hb : bindings_get ab v.name = none) :
    alloc_apply_bindings .vertex ab fdb fdib v = v := by
  simp [alloc_apply_bindings, h, hb]

theorem alloc_apply_bindings_fragment_some (ab fdb fdib : Bindings)
    (v : ir_variable) (b : Nat) (h : v.explicit_location = false)
    (hb : bindings_get fdb v.name = some b) :
    alloc_apply_bindings .fragment ab fdb fdib v
      = (match bindings_get fdib v.name with
         | some idx =>
           { v with location := (b : Int), is_unmatched_generic_inout := false,
                    index := (idx : Int) }
         | none =>
           { v with location := (b : Int),
                    is_unmatched_generic_inout := false }) := by
  cases hbi : bindings_get fdib v.name <;>
    simp [alloc_apply_bindings, h, hb, hbi]

theorem alloc_apply_bindings_fragment_none (ab fdb fdib : Bindings)
    (v : ir_variable) (h : v.explicit_location = false)
    (hb : bindings_get fdb v.name = none) :
    alloc_apply_bindings .fragment ab fdb fdib v = v := by
  simp [alloc_apply_bindings, h, hb]

/-- A non-append pass-1 outcome: when the (binding-applied) variable
already has a location, `to_assign` is unchanged — on the in-range,
out-of-range and collision-error paths alike. -/
theorem alloc_pass1_step_no_append (target : shader_target) (mi gb : Nat)
    (ab fdb fdib : Bindings) (cas : glsl_type → Nat)
    (st : AllocState) (pos : Nat) (v w : ir_variable)
    (h0 : st.halted = false)
    (hmode : v.mode = alloc_direction target)
    (hok : (v.explicit_location &&
      (((mi + gb : Nat) : Int) ≤ v.location || v.location < 0)) = false)
    (hw : alloc_apply_bindings target ab fdb fdib v = w)
    (hne : w.location ≠ -1) :
    (alloc_pass1_step target mi gb ab fdb fdib cas st pos
      (.var_decl v)).to_assign = st.to_assign := by
  unfold alloc_pass1_step
  rw [h0]
  simp only [Bool.false_eq_true, if_false]
  rw [if_neg (by simp [hmode]), if_neg (by rw [hok]; exact Bool.false_ne_true), hw, if_pos hne]
  split
  · split
    · rfl
    · rfl
  · rfl

/-- One pass-1 iteration from a non-halted state grows `to_assign` by
one exactly when the variable is of the target direction and lacks both
an explicit location and an application binding (given the location
invalidation invariant for non-explicit variables); every other path —
including the two error returns — leaves it unchanged. -/
theorem alloc_pass1_step_len (target : shader_target) (mi gb : Nat)
    (ab fdb fdib : Bindings) (cas : glsl_type → Nat)
    (st : AllocState) (pos : Nat) (node : ir_instruction)
    (h0 : st.halted = false)
    (hinv : ∀ v, node = .var_decl v → v.mode = alloc_direction target →
      v.explicit_location = false → v.location = -1) :
    (alloc_pass1_step target mi gb ab fdb fdib cas st pos node).to_assign.length
      = st.to_assign.length
        + (if lacks_explicit_and_binding target ab fdb node = true then 1 else 0) := by
  cases node with
  | other =>
    unfold alloc_pass1_step
    rw [h0]
    simp [lacks_explicit_and_binding]
  | function_decl f =>
    unfold alloc_pass1_step
    rw [h0]
    simp [lacks_explicit_and_binding]
  | var_decl v =>
    by_cases hmode : v.mode = alloc_direction target
    · cases hexp : v.explicit_location with
      | true =>
        have hlacks : lacks_explicit_and_binding target ab fdb (.var_decl v) = false := by
          simp [lacks_explicit_and_binding, hexp]
        rw [hlacks]
        simp only [Bool.false_eq_true, if_false, Nat.add_zero]
        by_cases hbad : (((mi + gb : Nat) : Int) ≤ v.location ∨ v.location < 0)
        · unfold alloc_pass1_step
          rw [h0]
          simp only [Bool.false_eq_true, if_false]
          rw [if_neg (by simp [hmode]),
            if_pos (by
              rw [hexp]
              simp only [Bool.true_and, Bool.or_eq_true, decide_eq_true_eq]
              exact hbad)]
        · have hA : ¬(((mi + gb : Nat) : Int) ≤ v.location) := fun hc => hbad (Or.inl hc)
          have hB : ¬(v.location < 0) := fun hc => hbad (Or.inr hc)
          have hok : (v.explicit_location &&
              (((mi + gb : Nat) : Int) ≤ v.location || v.location < 0)) = false := by
            rw [hexp]
            simp only [Bool.true_and, Bool.or_eq_false_iff, decide_eq_false_iff_not]
            exact ⟨hA, hB⟩
          have hw := alloc_apply_bindings_explicit target ab fdb fdib v hexp
          have hne : v.location ≠ -1 := by omega
          rw [alloc_pass1_step_no_append target mi gb ab fdb fdib cas st pos v v
            h0 hmode hok hw hne]
      | false =>
        have hloc : v.location = -1 := hinv v rfl hmode hexp
        have hok : (v.explicit_location &&
            (((mi + gb : Nat) : Int) ≤ v.location || v.location < 0)) = false := by
          rw [hexp]
          simp
        cases target with
        | vertex =>
          cases hb : bindings_get ab v.name with
          | some b =>
            have hw := alloc_apply_bindings_vertex_some ab fdb fdib v b hexp hb
            have hne : ({ v with location := (b : Int), is_unmatched_generic_inout := false } : ir_variable).location ≠ -1 := by
              dsimp only
              omega
            rw [alloc_pass1_step_no_append .vertex mi gb ab fdb fdib cas st pos v _
              h0 hmode hok hw hne]
            simp [lacks_explicit_and_binding, hexp, hb]
          | none =>
            have hw := alloc_apply_bindings_vertex_none ab fdb fdib v hexp hb
            unfold alloc_pass1_step
            rw [h0]
            simp only [Bool.false_eq_true, if_false]
            rw [if_neg (by simp [hmode]), if_neg (by rw [hok]; exact Bool.false_ne_true), hw,
              if_neg (by simp [hloc])]
            simp [lacks_explicit_and_binding, hexp, hmode, hb]
        | fragment =>
          cases hb : bindings_get fdb v.name with
          | some b =>
            have hw := alloc_apply_bindings_fragment_some ab fdb fdib v b hexp hb
            cases hbi : bindings_get fdib v.name with
            | some bi =>
              rw [hbi] at hw
              have hne : ({ v with location := (b : Int), is_unmatched_generic_inout := false, index := (bi : Int) } : ir_variable).location ≠ -1 := by
                dsimp only
                omega
              rw [alloc_pass1_step_no_append .fragment mi gb ab fdb fdib cas st pos v _
                h0 hmode hok hw hne]
              simp [lacks_explicit_and_binding, hexp, hb]
            | none =>
              rw [hbi] at hw
              have hne : ({ v with location := (b : Int), is_unmatched_generic_inout := false } : ir_variable).location ≠ -1 := by
                dsimp only
                omega
              rw [alloc_pass1_step_no_append .fragment mi gb ab fdb fdib cas st pos v _
                h0 hmode hok hw hne]
              simp [lacks_explicit_and_binding, hexp, hb]
          | none =>
            have hw := alloc_apply_bindings_fragment_none ab fdb fdib v hexp hb
            unfold alloc_pass1_step
            rw [h0]
            simp only [Bool.false_eq_true, if_false]
            rw [if_neg (by simp [hmode]), if_neg (by rw [hok]; exact Bool.false_ne_true), hw,
              if_neg (by simp [hloc])]
            simp [lacks_explicit_and_binding, hexp, hmode, hb]
    · unfold alloc_pass1_step
      rw [h0]
      simp only [Bool.false_eq_true, if_false]
      rw [if_pos hmode]
      simp [lacks_explicit_and_binding, hmode]

/-- When pass 1 runs to completion (no early link-error return), the
number of `to_assign` writes equals the number of direction variables
lacking both an explicit location and a binding. -/
theorem alloc_pass1_len (target : shader_target) (mi gb : Nat)
    (ab fdb fdib : Bindings) (cas : glsl_type → Nat)
    (nodes : List ir_instruction) (st : AllocState) (pos : Nat)
    (h0 : st.halted = false)
    (hinv : ∀ v, ir_instruction.var_decl v ∈ nodes →
      v.mode = alloc_direction target → v.explicit_location = false →
      v.location = -1)
    (hdone : (alloc_pass1 target mi gb ab fdb fdib cas st pos nodes).halted = false) :
    (alloc_pass1 target mi gb ab fdb fdib cas st pos nodes).to_assign.length
      = st.to_assign.length + count_unassigned target ab fdb nodes := by
  induction nodes generalizing st pos with
  | nil => simp [alloc_pass1, count_unassigned]
  | cons node rest ih =>
    unfold alloc_pass1 at hdone ⊢
    have h1 : (alloc_pass1_step target mi gb ab fdb fdib cas st pos node).halted
        = false := by
      cases hh : (alloc_pass1_step target mi gb ab fdb fdib cas st pos node).halted with
      | false => rfl
      | true =>
        rw [alloc_pass1_halted_mono target mi gb ab fdb fdib cas rest _ (pos + 1) hh]
          at hdone
        exact absurd hdone (by simp)
    have hstep := alloc_pass1_step_len target mi gb ab fdb fdib cas st pos node h0
      (fun v hv hm he => hinv v (by rw [← hv]; exact List.mem_cons_self _ _) hm he)
    have hrest := ih _ (pos + 1) h1
      (fun v hv hm he => hinv v (List.mem_cons_of_mem _ hv) hm he) hdone
    rw [hrest, hstep]
    simp only [count_unassigned, List.countP_cons]
    by_cases hl : lacks_explicit_and_binding target ab fdb node = true <;>
      simp [hl] <;> omega

/-- C10 (amended): when the collection loop of pass 1 runs to
completion without an early link-error return, the `to_assign` writes
use indices `0, 1, …` in order, so every write stays within the
16-element array exactly when at most 16 variables of the target
direction lack both an explicit location and an application-supplied
binding; with more than 16 such variables the write at index 16
overruns the array.  (The completion hypothesis is necessary: an
earlier link error aborts the loop before the writes happen — see the
counterexample.)  The invalidation hypothesis reflects
`link_invalidate_variable_locations` (linker.cpp 368-405), which resets
every non-explicit location to -1 before allocation. -/
theorem c10_to_assign_bound (target : shader_target) (mi gb : Nat)
    (ab fdb fdib : Bindings) (cas : glsl_type → Nat)
    (used0 : Nat) (prog : ProgState) (ir0 : List ir_instruction)
    (hinv : ∀ v, ir_instruction.var_decl v ∈ ir0 →
      v.mode = alloc_direction target → v.explicit_location = false →
      v.location = -1)
    (hdone : (alloc_pass1 target mi gb ab fdb fdib cas
      ⟨used0, [], ir0, prog, false⟩ 0 ir0).halted = false) :
    (alloc_pass1 target mi gb ab fdb fdib cas
        ⟨used0, [], ir0, prog, false⟩ 0 ir0).to_assign.length
      = count_unassigned target ab fdb ir0 ∧
    (count_unassigned target ab fdb ir0 ≤ 16 →
      ∀ k < (alloc_pass1 target mi gb ab fdb fdib cas
        ⟨used0, [], ir0, prog, false⟩ 0 ir0).to_assign.length, k < 16) ∧
    (16 < count_unassigned target ab fdb ir0 →
      16 < (alloc_pass1 target mi gb ab fdb fdib cas
        ⟨used0, [], ir0, prog, false⟩ 0 ir0).to_assign.length) := by
  have hlen := alloc_pass1_len target mi gb ab fdb fdib cas ir0
    ⟨used0, [], ir0, prog, false⟩ 0 rfl hinv hdone
  simp only [List.length_nil, Nat.zero_add] at hlen
  refine ⟨hlen, ?_, ?_⟩
  · intro hle k hk
    omega
  · intro hgt
    omega

/-- Witness for C10's amended theorem at a concrete one-variable input. -/
theorem c10_witness :
    (alloc_pass1 .vertex 16 16 [] [] [] (fun _ => 1)
        ⟨0, [], [.var_decl (mkAttrVar "a" false (-1))], link_reset, false⟩ 0
        [.var_decl (mkAttrVar "a" false (-1))]).to_assign.length
      = count_unassigned .vertex [] [] [.var_decl (mkAttrVar "a" false (-1))] := by
  have h := c10_to_assign_bound .vertex 16 16 [] [] [] (fun _ => 1) 0 link_reset
    [.var_decl (mkAttrVar "a" false (-1))]
    (by
      intro v hv _ _
      have h2 := List.mem_singleton.mp hv
      injection h2 with h3
      subst h3
      rfl)
    (by decide)
  exact h.1

/-- C10 counterexample to the claim as stated: with 17 variables
lacking both an explicit location and a binding, but preceded by a
variable whose invalid explicit location makes pass 1 return first, no
`to_assign` write happens at all — every performed write stays in
bounds although more than 16 such variables exist, where the claim says
the index exceeds the array bound for any such input. -/
theorem c10_counterexample :
    count_unassigned .vertex [] [] c10_bad_ir = 17 ∧
    (alloc_pass1 .vertex 16 16 [] [] [] (fun _ => 1)
      ⟨0, [], c10_bad_ir, link_reset, false⟩ 0 c10_bad_ir).halted = true ∧
    (alloc_pass1 .vertex 16 16 [] [] [] (fun _ => 1)
      ⟨0, [], c10_bad_ir, link_reset, false⟩ 0 c10_bad_ir).to_assign.length = 0 := by
  refine ⟨?_, ?_, ?_⟩ <;> decide

end GlslLinker
